import Mathlib

/-!
# 5chan backend: credentials, ephemeral accounts and the expiry notifier

A shallow embedding of `backend/handler/user.go`, `backend/handler/ws.go` and
`backend/models/user.go`, and the properties proved about it.

Conventions of the embedding

* A Go `string` is a Lean `String`; `[]byte` is `List UInt8`.
* `time.Time` is an `Int`: nanoseconds since the Unix epoch; `time.Duration` is an `Int`
  count of nanoseconds.
* Library primitives that are not part of the repository (SHA-256, Argon2id, the JWT
  signer, the RFC 3339 parsers) are fields of `Libs`: fixed deterministic functions; the
  length of a digest or key is carried by its type. Hex and unpadded base64 are defined
  here in full.
* A BSON datetime holds whole milliseconds and a timestamp in the layout `time.RFC3339`
  whole seconds; both are kept at that precision.
* Outcomes that the program cannot control (the randomness source, driver errors of a
  store call, a failing websocket write) are explicit inputs of the function that
  consumes them.
* The user collection is a list of BSON documents in insertion order; filters address
  fields by path and by exact name, as the MongoDB query language does; documents are
  decoded into structs as the driver's struct codec does, element by element, an element
  name being looked up exactly and then in lower case.
-/

set_option autoImplicit false

namespace FiveChan

/-! ## Bytes and text encodings (`encoding/hex`, `encoding/base64`) -/

/-- A byte slice of known length. -/
abbrev Bytes (n : Nat) := { l : List UInt8 // l.length = n }

/-- The UTF-8 encoding of one character. -/
def utf8Bytes (c : Char) : List UInt8 :=
  let n := c.toNat
  if n < 128 then [UInt8.ofNat n]
  else if n < 2048 then [UInt8.ofNat (192 + n / 64), UInt8.ofNat (128 + n % 64)]
  else if n < 65536 then
    [UInt8.ofNat (224 + n / 4096), UInt8.ofNat (128 + n / 64 % 64), UInt8.ofNat (128 + n % 64)]
  else
    [UInt8.ofNat (240 + n / 262144), UInt8.ofNat (128 + n / 4096 % 64),
     UInt8.ofNat (128 + n / 64 % 64), UInt8.ofNat (128 + n % 64)]

/-- The conversion `[]byte(s)`: the UTF-8 bytes of the string. -/
def bytesOf (s : String) : List UInt8 := s.toList.flatMap utf8Bytes

/-- The digit table of `encoding/hex`. -/
def hextable : List Char := "0123456789abcdef".toList

/-- The two lowercase hex digits of one byte: `hextable[v>>4]`, `hextable[v&0x0f]`. -/
def hexByte (b : UInt8) : List Char :=
  [hextable.getD (b.toNat / 16) '0', hextable.getD (b.toNat % 16) '0']

/-- The digits of `hex.EncodeToString`, as a list of characters. -/
def hexChars : List UInt8 → List Char
  | [] => []
  | b :: bs => hexByte b ++ hexChars bs

/-- The function `hex.EncodeToString`. -/
def hexEncode (bs : List UInt8) : String := String.mk (hexChars bs)

/-- The alphabet of `base64.StdEncoding` (and of `RawStdEncoding`). -/
def encodeStd : List Char :=
  "ABCDEFGHIJKLMNOPQRSTUVWXYZabcdefghijklmnopqrstuvwxyz0123456789+/".toList

/-- The character of a 6-bit value. -/
def b64Char (n : Nat) : Char := encodeStd.getD n 'A'

/-- The 6-bit value of a character of the alphabet (the decode map), if it has one. -/
def b64Val (c : Char) : Option Nat :=
  if c ∈ encodeStd then some (encodeStd.indexOf c) else none

/-- The 6-bit groups of the input: three bytes `val = b0<<16 | b1<<8 | b2` give the four
groups `val>>18`, `val>>12 & 63`, `val>>6 & 63`, `val & 63`; a remainder of one byte
gives two groups and a remainder of two bytes three (no padding is written). -/
def sextets : List UInt8 → List Nat
  | [] => []
  | [a] =>
      let v := a.toNat * 65536
      [v / 262144, v / 4096 % 64]
  | [a, b] =>
      let v := a.toNat * 65536 + b.toNat * 256
      [v / 262144, v / 4096 % 64, v / 64 % 64]
  | a :: b :: c :: rest =>
      let v := a.toNat * 65536 + b.toNat * 256 + c.toNat
      v / 262144 :: v / 4096 % 64 :: v / 64 % 64 :: v % 64 :: sextets rest

/-- The function `base64.RawStdEncoding.EncodeToString`. -/
def rawStdEncode (bs : List UInt8) : String := String.mk ((sextets bs).map b64Char)

/-- The 6-bit values of a run of characters; `none` at a character outside the alphabet
(the padding character `=` included, the encoding being unpadded). -/
def sextetsOf : List Char → Option (List Nat)
  | [] => some []
  | c :: cs =>
      match b64Val c, sextetsOf cs with
      | some v, some vs => some (v :: vs)
      | _, _ => none

/-- The bytes of a run of 6-bit groups: four groups give three bytes; a final quantum of
two groups gives one byte and of three groups two bytes; a final single group is corrupt
input. Left-over low bits of a final quantum are not checked (the decoder is not strict). -/
def unsextets : List Nat → Option (List UInt8)
  | [] => some []
  | [_] => none
  | [a, b] =>
      let v := a * 262144 + b * 4096
      some [UInt8.ofNat (v / 65536)]
  | [a, b, c] =>
      let v := a * 262144 + b * 4096 + c * 64
      some [UInt8.ofNat (v / 65536), UInt8.ofNat (v / 256 % 256)]
  | a :: b :: c :: d :: rest =>
      let v := a * 262144 + b * 4096 + c * 64 + d
      match unsextets rest with
      | some bs => some (UInt8.ofNat (v / 65536) :: UInt8.ofNat (v / 256 % 256)
          :: UInt8.ofNat (v % 256) :: bs)
      | none => none

/-- The function `base64.RawStdEncoding.DecodeString`; `none` is a decode error. Carriage
returns and line feeds in the input are skipped, as the Go decoder does. -/
def rawStdDecode (s : String) : Option (List UInt8) :=
  match sextetsOf (s.toList.filter (fun c => c != '\r' && c != '\n')) with
  | some vs => unsextets vs
  | none => none

/-! ## Time (`time`) -/

/-- A `time.Time`: nanoseconds since January 1, 1970 UTC. -/
abbrev Time := Int

/-- A `time.Duration`: a count of nanoseconds. -/
abbrev Duration := Int

/-- The constant `time.Nanosecond`. -/
def Nanosecond : Duration := 1

/-- The constant `time.Microsecond`. -/
def Microsecond : Duration := 1000 * Nanosecond

/-- The constant `time.Millisecond`. -/
def Millisecond : Duration := 1000 * Microsecond

/-- The constant `time.Second`. -/
def Second : Duration := 1000 * Millisecond

/-- The constant `time.Minute`. -/
def Minute : Duration := 60 * Second

/-- The constant `time.Hour`. -/
def Hour : Duration := 60 * Minute

/-- The zero `time.Time`: January 1, year 1, 00:00:00 UTC. -/
def zeroTime : Time := -62135596800 * Second

/-- The method `Time.Unix`: whole seconds since the epoch. -/
def unixSeconds (t : Time) : Int := t / Second

/-! ## Errors, JSON responses -/

/-- A Go `error` value: the sentinel `mongo.ErrNoDocuments`, or any other error. -/
inductive Error
  | ErrNoDocuments
  | other (msg : String)
  deriving DecidableEq, Repr

/-- A value of a JSON response body. A timestamp rendered with the layout `time.RFC3339`
(`2006-01-02T15:04:05Z07:00`, which has no fractional seconds) is kept as the instant its
text denotes: a whole number of seconds since the epoch. -/
inductive JSON
  | str (s : String)
  | rfc3339 (seconds : Int)
  deriving DecidableEq, Repr

/-- The call `t.Format(time.RFC3339)`. -/
def formatRFC3339 (t : Time) : JSON := .rfc3339 (unixSeconds t)

/-- The instant a response value denotes, when it is a timestamp. -/
def JSON.instant : JSON → Option Time
  | .rfc3339 seconds => some (seconds * Second)
  | .str _ => none

/-- An HTTP response: `c.Status(status).JSON(body)`. -/
structure Response where
  status : Nat
  body : List (String × JSON)
  deriving DecidableEq, Repr

/-! ## Library primitives -/

/-- The primitives of the libraries the program links against, as fixed functions. -/
structure Libs where
  /-- The digest `sha256.New(); Write(data); Sum(nil)`: 32 bytes. -/
  sha256 : List UInt8 → Bytes 32
  /-- The key `argon2.IDKey(password, salt, time, memory, threads, keyLen)`: `keyLen` bytes. -/
  IDKey : List UInt8 → List UInt8 → Nat → Nat → Nat → (keyLen : Nat) → Bytes keyLen
  /-- The token `jwt.NewWithClaims(SigningMethodHS256, {username, exp}).SignedString(secret)`. -/
  signedString : String → Int → List UInt8 → Except Error String
  /-- The method `(*time.Time).UnmarshalJSON` on the text of a JSON string. -/
  parseRFC3339 : String → Except Error Time
  /-- The call `time.Parse(time.RFC3339, s)`, which the BSON decoder makes for a string that
  is decoded into a `time.Time`. -/
  timeParse : String → Except Error Time

/-! ## Password hashing (`handler/user.go`) -/

/-- The struct `passwordHash`. -/
structure passwordHash where
  Hash : String
  Salt : String
  Format : String
  deriving DecidableEq, Repr

/-- The function `hashPasswordArgon2`; `randRead` is what `rand.Read(salt)` did with the
16-byte buffer: the bytes it filled in, or its error. -/
def hashPasswordArgon2 (lib : Libs) (randRead : Except Error (Bytes 16))
    (password : String) : Except Error passwordHash :=
  match randRead with
  | .error err => .error err
  | .ok salt =>
      let hash := lib.IDKey (bytesOf password) salt.val 1 (64 * 1024) 4 32
      .ok { Hash := rawStdEncode hash.val, Salt := rawStdEncode salt.val, Format := "argon2id" }

/-- The function `verifyArgon2`. -/
def verifyArgon2 (lib : Libs) (password saltBase64 hashBase64 : String) : Bool :=
  match rawStdDecode saltBase64 with
  | none => false
  | some salt =>
      let computed := lib.IDKey (bytesOf password) salt 1 (64 * 1024) 4 32
      rawStdEncode computed.val == hashBase64

/-- The function `hashPasswordSHA256`. -/
def hashPasswordSHA256 (lib : Libs) (password salt : String) : String :=
  hexEncode (lib.sha256 (bytesOf (password ++ salt))).val

/-- The function `verifyPassword`. -/
def verifyPassword (lib : Libs) (password salt hash format : String) : Bool :=
  if format == "argon2id" then verifyArgon2 lib password salt hash
  else hashPasswordSHA256 lib password salt == hash

/-- The function `generateToken`; `now` is the reading of `time.Now()` inside it. -/
def generateToken (lib : Libs) (now : Time) (username : String) (secret : List UInt8) :
    Except Error String :=
  lib.signedString username (unixSeconds (now + 24 * Hour)) secret

/-- The constant `chars` of `mustGenerateString`. -/
def chars : List Char :=
  "abcdefghijklmnopqrstuvwxyzABCDEFGHIJKLMNOPQRSTUVWXYZ0123456789".toList

/-- The function `mustGenerateString`; `draw i` is the number that the `i`-th call
`rand.Int(rand.Reader, big.NewInt(len(chars)))` returns. The panic on a failing
randomness source is outside the model. -/
def mustGenerateString (length : Nat) (draw : Nat → Fin 62) : String :=
  String.mk ((List.range length).map (fun i => chars.getD (draw i).val 'a'))

/-! ## Data model (`models/user.go`, `handler/user.go`) -/

/-- The struct `model.User`. -/
structure User where
  Username : String
  Email : String
  Password : String
  Salt : String
  Format : String
  IsRandom : Bool
  ExpiresAt : Time
  deriving DecidableEq, Repr

/-- The zero value of `model.User`. -/
def User.zero : User :=
  { Username := "", Email := "", Password := "", Salt := "", Format := "",
    IsRandom := false, ExpiresAt := zeroTime }

/-- The struct `model.ExpiryNotification`. -/
structure ExpiryNotification where
  Username : String
  DeletedAt : Time
  deriving DecidableEq, Repr

/-- The struct `DatabaseUser`: the shape of the documents the handlers insert. -/
structure DatabaseUser where
  User : User
  ExpiresAt : Time
  deriving DecidableEq, Repr

/-! ## The document store (`go.mongodb.org/mongo-driver`) -/

/-- A BSON value, as far as the program stores them. A BSON datetime is a count of
milliseconds since the Unix epoch. -/
inductive BSON
  | str (s : String)
  | bool (b : Bool)
  | date (ms : Int)
  | doc (fields : List (String × BSON))

/-- A BSON document: its elements in order. -/
abbrev Document := List (String × BSON)

/-- The user collection: its documents in insertion order. The `_id` that the server adds
to every document plays no part in the program and is left out. -/
abbrev Store := List Document

/-- The BSON datetime of a `time.Time`: whole milliseconds, the rest is dropped. -/
def toDateTime (t : Time) : Int := t / Millisecond

/-- The `time.Time` of a BSON datetime. -/
def fromDateTime (ms : Int) : Time := ms * Millisecond

/-- The value at a field path (`"user.username"` is the path `["user", "username"]`):
each name of the path selects a field of an embedded document. -/
def lookupPath : List String → BSON → Option BSON
  | [], v => some v
  | k :: ks, .doc fields =>
      match fields.lookup k with
      | some v => lookupPath ks v
      | none => none
  | _ :: _, _ => none

/-- The condition a filter puts on one path: equality with a string or boolean
(`bson.M{path: value}`) or `bson.M{path: bson.M{"$lte": t}}` for a datetime. -/
inductive Condition
  | eqStr (s : String)
  | eqBool (b : Bool)
  | lteDate (ms : Int)

/-- A query filter `bson.M{...}`: every condition must hold. -/
abbrev Filter := List (List String × Condition)

/-- Whether a condition holds of the value found at its path. A missing field and a value
of another type satisfy none of the three conditions. -/
def Condition.holds : Condition → Option BSON → Bool
  | .eqStr s, some (.str s') => s' == s
  | .eqBool b, some (.bool b') => b' == b
  | .lteDate ms, some (.date ms') => decide (ms' ≤ ms)
  | _, _ => false

/-- Whether a document matches a filter. -/
def matchesFilter (f : Filter) (d : Document) : Bool :=
  f.all (fun pc => pc.2.holds (lookupPath pc.1 (.doc d)))

/-- The call `Collection.FindOne(ctx, f)`: the first matching document, or
`mongo.ErrNoDocuments`; `driverErr` is the error of the call, when it fails. -/
def FindOne (driverErr : Option String) (store : Store) (f : Filter) : Except Error Document :=
  match driverErr with
  | some msg => .error (.other msg)
  | none =>
      match store.find? (matchesFilter f) with
      | some d => .ok d
      | none => .error .ErrNoDocuments

/-- The call `Collection.Find(ctx, f)`: the matching documents, in store order. -/
def Find (driverErr : Option String) (store : Store) (f : Filter) : Except Error (List Document) :=
  match driverErr with
  | some msg => .error (.other msg)
  | none => .ok (store.filter (matchesFilter f))

/-- The call `Collection.InsertOne(ctx, doc)`. -/
def InsertOne (driverErr : Option String) (store : Store) (d : Document) : Except Error Store :=
  match driverErr with
  | some msg => .error (.other msg)
  | none => .ok (store ++ [d])

/-- The call `Collection.DeleteOne(ctx, f)`: removes the first matching document, if there
is one, and reports how many documents it removed (`DeleteResult.DeletedCount`); deleting
nothing is not an error. A call that fails leaves the collection as it was. -/
def DeleteOne (driverErr : Option String) (store : Store) (f : Filter) :
    Except Error Nat × Store :=
  match driverErr with
  | some msg => (.error (.other msg), store)
  | none => (.ok (if store.any (matchesFilter f) then 1 else 0), store.eraseP (matchesFilter f))

/-- The lower-case form of one character under `strings.ToLower`, as far as it can yield
an ASCII letter: the letters `A` to `Z`, and the two other characters whose lower case is
an ASCII letter, U+0130 (`i`) and U+212A (`k`). Any other character has a lower case
outside ASCII and is left as it is, which no ASCII field name equals either way. -/
def lowerChar (c : Char) : Char :=
  if c = Char.ofNat 304 then 'i'
  else if c = Char.ofNat 8490 then 'k'
  else c.toLower

/-- The call `strings.ToLower(name)` on an element name. -/
def lowerName (name : String) : String := String.mk (name.toList.map lowerChar)

/-- The struct field an element is decoded into, by its key: the struct codec of the driver
looks the element name up among the keys of the struct and, when it is not one of them,
looks up its lower-case form; an element that matches neither way is skipped. -/
def fieldKey (keys : List String) (name : String) : Option String :=
  if name ∈ keys then some name
  else if lowerName name ∈ keys then some (lowerName name)
  else none

/-- Decoding a value into a `string` field: only a BSON string decodes. -/
def decodeString (key : String) : BSON → Except Error String
  | .str s => .ok s
  | _ => .error (.other ("error decoding key " ++ key ++ ": cannot decode into a string type"))

/-- Decoding a value into a `bool` field: only a BSON boolean decodes. -/
def decodeBool (key : String) : BSON → Except Error Bool
  | .bool b => .ok b
  | _ => .error (.other ("error decoding key " ++ key ++ ": cannot decode into a boolean type"))

/-- Decoding a value into a `time.Time` field: a BSON datetime decodes, and so does a
string that `time.Parse(time.RFC3339, s)` accepts. The error of a failing decode is the
driver's own, never the sentinel `mongo.ErrNoDocuments`. -/
def decodeTime (lib : Libs) (key : String) : BSON → Except Error Time
  | .date ms => .ok (fromDateTime ms)
  | .str s =>
      match lib.timeParse s with
      | .ok t => .ok t
      | .error _ => .error (.other ("error decoding key " ++ key ++ ": parsing time"))
  | _ => .error (.other ("error decoding key " ++ key ++ ": cannot decode into a time.Time"))

/-- The keys of `model.User`, by its `bson` tags. -/
def userKeys : List String :=
  ["username", "email", "password", "salt", "format", "is_random", "expires_at"]

/-- Decoding one element of a document into the field of `model.User` it belongs to. -/
def decodeUserElement (lib : Libs) (u : User) (e : String × BSON) : Except Error User :=
  match fieldKey userKeys e.1 with
  | none => .ok u
  | some key =>
      if key == "username" then
        match decodeString key e.2 with
        | .ok s => .ok { u with Username := s }
        | .error err => .error err
      else if key == "email" then
        match decodeString key e.2 with
        | .ok s => .ok { u with Email := s }
        | .error err => .error err
      else if key == "password" then
        match decodeString key e.2 with
        | .ok s => .ok { u with Password := s }
        | .error err => .error err
      else if key == "salt" then
        match decodeString key e.2 with
        | .ok s => .ok { u with Salt := s }
        | .error err => .error err
      else if key == "format" then
        match decodeString key e.2 with
        | .ok s => .ok { u with Format := s }
        | .error err => .error err
      else if key == "is_random" then
        match decodeBool key e.2 with
        | .ok b => .ok { u with IsRandom := b }
        | .error err => .error err
      else
        match decodeTime lib key e.2 with
        | .ok t => .ok { u with ExpiresAt := t }
        | .error err => .error err

/-- Decoding the elements of a document, in order, into a `model.User`: every element is
assigned in turn, so of two elements that reach the same field the later one stays; the
first element that fails to decode fails the whole. -/
def decodeUserElements (lib : Libs) : List (String × BSON) → User → Except Error User
  | [], u => .ok u
  | e :: es, u =>
      match decodeUserElement lib u e with
      | .ok u' => decodeUserElements lib es u'
      | .error err => .error err

/-- Decoding a document into `model.User`, by the `bson` tags of the struct; a field that
no element reaches keeps its zero value. -/
def decodeUser (lib : Libs) (d : Document) : Except Error User :=
  decodeUserElements lib d User.zero

/-- The keys of `DatabaseUser`, by its `bson` tags. -/
def databaseUserKeys : List String := ["user", "expires_at"]

/-- Decoding one element of a document into the field of `DatabaseUser` it belongs to. -/
def decodeDatabaseUserElement (lib : Libs) (a : DatabaseUser) (e : String × BSON) :
    Except Error DatabaseUser :=
  match fieldKey databaseUserKeys e.1 with
  | none => .ok a
  | some key =>
      if key == "user" then
        match e.2 with
        | .doc fields =>
            match decodeUserElements lib fields a.User with
            | .ok u => .ok { a with User := u }
            | .error err => .error err
        | _ => .error (.other "error decoding key user: cannot decode into a model.User")
      else
        match decodeTime lib key e.2 with
        | .ok t => .ok { a with ExpiresAt := t }
        | .error err => .error err

/-- Decoding the elements of a document, in order, into a `DatabaseUser`. -/
def decodeDatabaseUserElements (lib : Libs) :
    List (String × BSON) → DatabaseUser → Except Error DatabaseUser
  | [], a => .ok a
  | e :: es, a =>
      match decodeDatabaseUserElement lib a e with
      | .ok a' => decodeDatabaseUserElements lib es a'
      | .error err => .error err

/-- Decoding a document into `DatabaseUser`, by the `bson` tags of the struct. -/
def decodeDatabaseUser (lib : Libs) (d : Document) : Except Error DatabaseUser :=
  decodeDatabaseUserElements lib d { User := User.zero, ExpiresAt := zeroTime }

/-- The call `cursor.All(ctx, &expired)` with `expired []model.User`: every document of
the cursor is decoded; the first failure fails the call. -/
def decodeAll (lib : Libs) : List Document → Except Error (List User)
  | [] => .ok []
  | d :: ds =>
      match decodeUser lib d with
      | .error e => .error e
      | .ok u =>
          match decodeAll lib ds with
          | .error e => .error e
          | .ok us => .ok (u :: us)

/-- The document of a `model.User`, by the `bson` tags of the struct. -/
def encodeUser (u : User) : Document :=
  [("username", .str u.Username), ("email", .str u.Email), ("password", .str u.Password),
   ("salt", .str u.Salt), ("format", .str u.Format), ("is_random", .bool u.IsRandom),
   ("expires_at", .date (toDateTime u.ExpiresAt))]

/-- The document of a `DatabaseUser`: the account under `user`, the expiry next to it. -/
def encodeDatabaseUser (u : DatabaseUser) : Document :=
  [("user", .doc (encodeUser u.User)), ("expires_at", .date (toDateTime u.ExpiresAt))]

/-! ## Request bodies (`c.BodyParser`) -/

/-- The value of a member of a JSON object: a string, `null`, or anything else (a number,
a boolean, an array, an object). -/
inductive Member
  | str (s : String)
  | null
  | other
  deriving DecidableEq, Repr

/-- The case folding of `encoding/json` on one character: letters fold with their other
case, and the two characters outside ASCII that fold with an ASCII letter do too, U+017F
with `s` and U+212A with `k`. -/
def foldChar (c : Char) : Char :=
  if c = Char.ofNat 383 then 's'
  else if c = Char.ofNat 8490 then 'k'
  else c.toLower

/-- Member names are matched to the `json` names of the struct up to case folding. -/
def foldName (key : String) : String := String.mk (key.toList.map foldChar)

/-- Decoding one member of a JSON object into `model.User`. The struct has three fields
with a JSON name: `username`, `email` and `expires_at`. `Password`, `Salt`, `Format` and
`IsRandom` carry the tag `json:"-"` and no member reaches them; a member with any other
name is skipped. -/
def unmarshalMember (lib : Libs) (u : User) (m : String × Member) : Except Error User :=
  if foldName m.1 == "username" then
    match m.2 with
    | .str s => .ok { u with Username := s }
    | .null => .ok u
    | .other => .error (.other "json: cannot unmarshal into field username of type string")
  else if foldName m.1 == "email" then
    match m.2 with
    | .str s => .ok { u with Email := s }
    | .null => .ok u
    | .other => .error (.other "json: cannot unmarshal into field email of type string")
  else if foldName m.1 == "expires_at" then
    match m.2 with
    | .str s =>
        match lib.parseRFC3339 s with
        | .ok t => .ok { u with ExpiresAt := t }
        | .error e => .error e
    | .null => .ok u
    | .other => .error (.other "json: cannot unmarshal into field expires_at of type time.Time")
  else .ok u

/-- Decoding the members of a JSON object, in order, into a `model.User`. -/
def unmarshalUser (lib : Libs) : List (String × Member) → User → Except Error User
  | [], u => .ok u
  | m :: ms, u =>
      match unmarshalMember lib u m with
      | .ok u' => unmarshalUser lib ms u'
      | .error e => .error e

/-- The call `c.BodyParser(&newUser)` of `Signup` on a request of content type
`application/json` whose body is a JSON object with the given members. -/
def BodyParserJSON (lib : Libs) (members : List (String × Member)) : Except Error User :=
  unmarshalUser lib members User.zero

/-- The credentials struct of `Login`. -/
structure Creds where
  Username : String
  Password : String
  deriving DecidableEq, Repr

/-! ## The HTTP handlers (`handler/user.go`) -/

/-- The struct `AuthHandler`; its `userCollection` is the store the handlers are run on. -/
structure AuthHandler where
  jwtSecret : List UInt8

/-- The method `SingleResult.Decode(&dbUser)` with `dbUser DatabaseUser`. -/
def Decode (lib : Libs) (r : Except Error Document) : Except Error DatabaseUser :=
  match r with
  | .error e => .error e
  | .ok d => decodeDatabaseUser lib d

/-- What the environment does during one run of `Signup`. -/
structure SignupEnv where
  /-- The driver error of the `FindOne` call, if it fails. -/
  findOneErr : Option String
  /-- The outcome of `rand.Read` in `hashPasswordArgon2`. -/
  randRead : Except Error (Bytes 16)
  /-- The driver error of the `InsertOne` call, if it fails. -/
  insertOneErr : Option String

/-- The handler `Signup`: the response and the store afterwards; `parsed` is the outcome of
`c.BodyParser(&newUser)`. -/
def Signup (lib : Libs) (env : SignupEnv) (parsed : Except Error User) (store : Store) :
    Response × Store :=
  match parsed with
  | .error _ => (⟨400, [("error", .str "Invalid request")]⟩, store)
  | .ok newUser =>
      if newUser.Username == "" || newUser.Email == "" || newUser.Password == "" then
        (⟨400, [("error", .str "Missing required fields")]⟩, store)
      else
        match Decode lib (FindOne env.findOneErr store
            [(["user", "username"], .eqStr newUser.Username)]) with
        | .ok _ => (⟨409, [("error", .str "Username exists")]⟩, store)
        | .error err =>
            if err ≠ Error.ErrNoDocuments then
              (⟨500, [("error", .str "Database error")]⟩, store)
            else
              match hashPasswordArgon2 lib env.randRead newUser.Password with
              | .error _ => (⟨500, [("error", .str "Password error")]⟩, store)
              | .ok pwHash =>
                  let userDoc : DatabaseUser :=
                    { User :=
                        { Username := newUser.Username, Email := newUser.Email,
                          Password := pwHash.Hash, Salt := pwHash.Salt, Format := pwHash.Format,
                          IsRandom := false, ExpiresAt := zeroTime },
                      ExpiresAt := zeroTime }
                  match InsertOne env.insertOneErr store (encodeDatabaseUser userDoc) with
                  | .error _ => (⟨500, [("error", .str "Create user failed")]⟩, store)
                  | .ok store' =>
                      (⟨201, [("message", .str "User created"),
                              ("user", .str userDoc.User.Username)]⟩, store')

/-- What the environment does during one run of `Login`. -/
structure LoginEnv where
  /-- The driver error of the `FindOne` call, if it fails. -/
  findOneErr : Option String
  /-- The reading of `time.Now()` in `generateToken`. -/
  now : Time

/-- The handler `Login`; `parsed` is the outcome of `c.BodyParser(&creds)`. The store is
only read. -/
def Login (lib : Libs) (h : AuthHandler) (env : LoginEnv) (parsed : Except Error Creds)
    (store : Store) : Response :=
  match parsed with
  | .error _ => ⟨400, [("error", .str "Invalid request")]⟩
  | .ok creds =>
      match Decode lib (FindOne env.findOneErr store
          [(["user", "username"], .eqStr creds.Username)]) with
      | .error _ => ⟨401, [("error", .str "Invalid credentials")]⟩
      | .ok dbUser =>
          let user := dbUser.User
          let valid := verifyPassword lib creds.Password user.Salt user.Password user.Format
          if !valid then ⟨401, [("error", .str "Invalid credentials")]⟩
          else
            match generateToken lib env.now user.Username h.jwtSecret with
            | .error _ => ⟨500, [("error", .str "Token error")]⟩
            | .ok token =>
                ⟨200, [("message", .str "Login success"), ("user", .str user.Username),
                       ("token", .str token)]⟩

/-- What the environment does during one run of `RandomAcc`. -/
structure RandomAccEnv where
  /-- The draws of `mustGenerateString(12)`. -/
  drawUsername : Nat → Fin 62
  /-- The draws of `mustGenerateString(16)`. -/
  drawPassword : Nat → Fin 62
  /-- The outcome of `rand.Read` in `hashPasswordArgon2`. -/
  randRead : Except Error (Bytes 16)
  /-- The reading of `time.Now()` from which `expiresAt` is computed. -/
  now : Time
  /-- The driver error of the `InsertOne` call, if it fails. -/
  insertOneErr : Option String
  /-- The reading of `time.Now()` in `generateToken`. -/
  tokenNow : Time

/-- The `DatabaseUser` that `RandomAcc` builds from its random strings, the password hash
and the time. -/
def randomUser (username : String) (pwHash : passwordHash) (expiresAt : Time) : DatabaseUser :=
  { User :=
      { Username := username, Email := "", Password := pwHash.Hash, Salt := pwHash.Salt,
        Format := pwHash.Format, IsRandom := true, ExpiresAt := zeroTime },
    ExpiresAt := expiresAt }

/-- The handler `RandomAcc`: the response and the store afterwards. -/
def RandomAcc (lib : Libs) (h : AuthHandler) (env : RandomAccEnv) (store : Store) :
    Response × Store :=
  let username := "anon_" ++ mustGenerateString 12 env.drawUsername
  let password := mustGenerateString 16 env.drawPassword
  match hashPasswordArgon2 lib env.randRead password with
  | .error _ => (⟨500, [("error", .str "Password error")]⟩, store)
  | .ok pwHash =>
      let expiresAt := env.now + 30 * 24 * Hour
      let user := randomUser username pwHash expiresAt
      match InsertOne env.insertOneErr store (encodeDatabaseUser user) with
      | .error _ => (⟨500, [("error", .str "Create failed")]⟩, store)
      | .ok store' =>
          match generateToken lib env.tokenNow username h.jwtSecret with
          | .error _ => (⟨500, [("error", .str "Token error")]⟩, store')
          | .ok token =>
              (⟨201, [("username", .str username), ("password", .str password),
                      ("token", .str token), ("expires_at", formatRFC3339 expiresAt)]⟩, store')

/-! ## The expiry notifier (`handler/ws.go`) -/

/-- The filter of `checkAndDeleteExpired`:
`bson.M{"is_random": true, "expires_at": bson.M{"$lte": now}}`. -/
def scanFilter (now : Time) : Filter :=
  [(["is_random"], .eqBool true), (["expires_at"], .lteDate (toDateTime now))]

/-- The filter of the delete call: `bson.M{"username": user.Username}`. -/
def deleteFilter (username : String) : Filter := [(["username"], .eqStr username)]

/-- The first half of `checkAndDeleteExpired`: `Find` with the scan filter, then
`cursor.All(ctx, &expired)`. -/
def findExpired (lib : Libs) (findErr : Option String) (now : Time) (store : Store) :
    Except Error (List User) :=
  match Find findErr store (scanFilter now) with
  | .error err => .error err
  | .ok cursor => decodeAll lib cursor

/-- The second half of `checkAndDeleteExpired`: the loop over `expired`, started at its
`k`-th element with the notifications collected so far. `deleteErr k` is the driver error
of the `k`-th `DeleteOne` call, if it fails. The value `DeleteOne` returns next to the error
is discarded, as in the source (`_, err := ...`). -/
def deleteExpired (deleteErr : Nat → Option String) (now : Time) :
    Nat → List User → Store → List ExpiryNotification → List ExpiryNotification × Store
  | _, [], store, notifications => (notifications, store)
  | k, user :: rest, store, notifications =>
      match DeleteOne (deleteErr k) store (deleteFilter user.Username) with
      | (.error _, store') => deleteExpired deleteErr now (k + 1) rest store' notifications
      | (.ok _, store') =>
          deleteExpired deleteErr now (k + 1) rest store'
            (notifications ++ [{ Username := user.Username, DeletedAt := now }])

/-- The method `checkAndDeleteExpired`: its two results and the store afterwards; `now` is
the reading of `time.Now()` at its start. -/
def checkAndDeleteExpired (lib : Libs) (findErr : Option String)
    (deleteErr : Nat → Option String) (now : Time) (store : Store) :
    Except Error (List ExpiryNotification) × Store :=
  match findExpired lib findErr now store with
  | .error err => (.error err, store)
  | .ok expired =>
      let r := deleteExpired deleteErr now 0 expired store []
      (.ok r.1, r.2)

/-- A message written to the websocket with `c.WriteJSON`. -/
inductive WSMessage
  | error (text : String)
  | expiry (n : ExpiryNotification)
  deriving DecidableEq, Repr

/-- The loop `for _, user := range expiredUsers` of `ExpiryCheck`, from the `i`-th
notification on: each one is written; the first write that fails ends the handler.
Returns the messages written and whether the handler goes on. -/
def writeAll (writeErr : Nat → Bool) :
    Nat → List ExpiryNotification → List WSMessage → List WSMessage × Bool
  | _, [], written => (written, true)
  | i, user :: rest, written =>
      if writeErr i then (written, false)
      else writeAll writeErr (i + 1) rest (written ++ [.expiry user])

/-- What the environment does during one firing of the ticker in `ExpiryCheck`. -/
structure Tick where
  /-- The reading of `time.Now()` in `checkAndDeleteExpired`. -/
  now : Time
  /-- The driver error of the `Find` call, if it fails. -/
  findErr : Option String
  /-- The driver error of the `k`-th `DeleteOne` call, if it fails. -/
  deleteErr : Nat → Option String
  /-- Whether the `i`-th `WriteJSON` of this firing fails. -/
  writeErr : Nat → Bool

/-- What the `select` of `ExpiryCheck` receives: a firing of the ticker, or the close of
`done` by the goroutine that watches the connection. -/
inductive Event
  | tick (t : Tick)
  | done

/-- The handler `ExpiryCheck` run on the events its `select` receives, in order: the
messages written to the connection, the store afterwards, and whether the handler has
returned (and the connection is closed) at the end of the events. -/
def ExpiryCheck (lib : Libs) :
    List Event → Store → List WSMessage → List WSMessage × Store × Bool
  | [], store, written => (written, store, false)
  | .done :: _, store, written => (written, store, true)
  | .tick t :: events, store, written =>
      match checkAndDeleteExpired lib t.findErr t.deleteErr t.now store with
      | (.error _, store') =>
          ExpiryCheck lib events store'
            (if t.writeErr 0 then written
             else written ++ [.error "Failed to check expired accounts"])
      | (.ok expiredUsers, store') =>
          match writeAll t.writeErr 0 expiredUsers written with
          | (written', true) => ExpiryCheck lib events store' written'
          | (written', false) => (written', store', true)

/-! ## Notions used in the statements -/

/-- The user name a record is keyed by: the string in its top-level `username` field. -/
def topUsername (d : Document) : Option String :=
  match d.lookup "username" with
  | some (.str name) => some name
  | _ => none

/-- A collection that holds accounts as the handlers insert them: every document is the
encoding of a `DatabaseUser`. -/
def HoldsAccounts (store : Store) : Prop :=
  ∀ d ∈ store, ∃ a : DatabaseUser, d = encodeDatabaseUser a

/-- The value of the `expires_at` member of a response, as an instant. -/
def Response.expiresAt (r : Response) : Option Time :=
  match r.body.lookup "expires_at" with
  | some v => v.instant
  | none => none

/-- The values that the successive `DeleteOne` calls of the loop in `checkAndDeleteExpired`
return, from the `k`-th call on: the deleted count, or the error. -/
def deleteResults (deleteErr : Nat → Option String) :
    Nat → List User → Store → List (Except Error Nat)
  | _, [], _ => []
  | k, user :: rest, store =>
      (DeleteOne (deleteErr k) store (deleteFilter user.Username)).1 ::
        deleteResults deleteErr (k + 1) rest
          (DeleteOne (deleteErr k) store (deleteFilter user.Username)).2

/-! ## Concrete instances, used to run the definitions on examples -/

/-- A byte slice of length `n` filled with `b`. -/
def fill (n : Nat) (b : UInt8) : Bytes n := ⟨List.replicate n b, List.length_replicate n b⟩

/-- Stand-ins for the library primitives: the digest and the key repeat the sum of their
input bytes, the token is the user name followed by its expiry. -/
def toyLibs : Libs where
  sha256 := fun data => fill 32 (data.foldl (· + ·) 0)
  IDKey := fun password salt _ _ _ keyLen =>
    fill keyLen (password.foldl (· + ·) 0 + salt.foldl (· + ·) 0)
  signedString := fun username exp _ => .ok (username ++ "." ++ toString exp)
  parseRFC3339 := fun _ => .error (.other "parsing time: not in the layout")
  timeParse := fun _ => .error (.other "parsing time: not in the layout")

/-- A handler with a fixed secret. -/
def toyHandler : AuthHandler := { jwtSecret := [1, 2, 3] }

/-- A run of `RandomAcc` at time `now` in which every call succeeds. -/
def calmRandomAcc (now : Time) : RandomAccEnv :=
  { drawUsername := fun _ => 0, drawPassword := fun _ => 1, randRead := .ok (fill 16 7),
    now := now, insertOneErr := none, tokenNow := now }

/-- A run of `Signup` in which every call succeeds. -/
def calmSignup : SignupEnv :=
  { findOneErr := none, randRead := .ok (fill 16 7), insertOneErr := none }

/-- The JSON body `{"username":"alice","email":"a@x.com","password":"secret1"}`. -/
def aliceBody : List (String × Member) :=
  [("username", .str "alice"), ("email", .str "a@x.com"), ("password", .str "secret1")]

/-- A document with the fields of `model.User` at its top level: the shape that
`checkAndDeleteExpired` reads. -/
def flatAccount (username : String) (isRandom : Bool) (expiresAt : Time) : Document :=
  encodeUser { Username := username, Email := "", Password := "", Salt := "", Format := "",
               IsRandom := isRandom, ExpiresAt := expiresAt }

/-- The account that a scan of `flatStore` at time `Hour` finds. -/
def anonA : User :=
  { Username := "anon_a", Email := "", Password := "", Salt := "", Format := "",
    IsRandom := true, ExpiresAt := 0 }

/-- A firing of the ticker at time `Hour` in which every call succeeds. -/
def calmTick : Tick :=
  { now := Hour, findErr := none, deleteErr := fun _ => none, writeErr := fun _ => false }

/-- A run of `RandomAcc` at 1.500000001 s after the epoch in which every call succeeds. -/
def oddRandomAcc : RandomAccEnv := calmRandomAcc 1500000001

/-- A decoded signup request with all three required fields, as a form or XML body can
give it (those decoders go by field name and do fill `Password`). -/
def aliceRequest : User :=
  { Username := "alice", Email := "a@x.com", Password := "secret1", Salt := "", Format := "",
    IsRandom := false, ExpiresAt := zeroTime }

/-- The account that `Signup` stores for `aliceRequest` under `toyLibs` and `calmSignup`. -/
def aliceAccount : DatabaseUser :=
  { User :=
      { Username := "alice", Email := "a@x.com",
        Password := "JycnJycnJycnJycnJycnJycnJycnJycnJycnJycnJyc",
        Salt := "BwcHBwcHBwcHBwcHBwcHBw", Format := "argon2id", IsRandom := false,
        ExpiresAt := zeroTime },
    ExpiresAt := zeroTime }

/-- The collection after `aliceRequest` has signed up. -/
def aliceStore : Store := [encodeDatabaseUser aliceAccount]

/-- The `model.User` that the scan decodes from `flatAccount username true 0`. -/
def scanned (username : String) : User :=
  { Username := username, Email := "", Password := "", Salt := "", Format := "",
    IsRandom := true, ExpiresAt := 0 }

/-- A collection with three expired ephemeral accounts, not in alphabetical order, and a
standard account between them. -/
def orderStore : Store :=
  [flatAccount "anon_z" true 0, flatAccount "anon_m" true 0, flatAccount "bob" false 0,
   flatAccount "anon_a" true 0]

/-- A firing of the ticker at time `Hour` in which the second `DeleteOne` call fails. -/
def roughTick : Tick :=
  { now := Hour, findErr := none,
    deleteErr := fun k => if k = 1 then some "connection reset" else none,
    writeErr := fun _ => false }

/-- A firing of the ticker at time `Hour` in which the second `DeleteOne` call and the
second `WriteJSON` call fail. -/
def brokenTick : Tick :=
  { now := Hour, findErr := none,
    deleteErr := fun k => if k = 1 then some "connection reset" else none,
    writeErr := fun i => i == 1 }

/-- A run of `Signup` in which the `FindOne` call fails with a driver error. -/
def lostSignup : SignupEnv :=
  { findOneErr := some "connection reset", randRead := .ok (fill 16 7), insertOneErr := none }

/-- A document that carries the user name `alice` under `user.username` and does not
decode as a `DatabaseUser`: its `email` is a boolean. -/
def brokenAlice : Document :=
  [("user", .doc [("username", .str "alice"), ("email", .bool true)])]

/-! # Theorems -/

/-! ## The encodings -/

theorem b64Val_b64Char (n : Nat) (h : n < 64) : b64Val (b64Char n) = some n := by
  have key : ∀ k : Fin 64, b64Val (b64Char k.val) = some k.val := by decide
  exact key ⟨n, h⟩

theorem b64Char_not_newline (n : Nat) (h : n < 64) :
    (b64Char n != '\r' && b64Char n != '\n') = true := by
  have key : ∀ k : Fin 64, (b64Char k.val != '\r' && b64Char k.val != '\n') = true := by decide
  exact key ⟨n, h⟩

theorem sextets_lt (bs : List UInt8) : ∀ n ∈ sextets bs, n < 64 := by
  induction bs using sextets.induct with
  | case1 => simp [sextets]
  | case2 a =>
      have := a.toNat_lt
      simp only [sextets, List.mem_cons, List.mem_singleton, List.not_mem_nil, or_false]
      rintro n (rfl | rfl) <;> omega
  | case3 a b =>
      have := a.toNat_lt
      have := b.toNat_lt
      simp only [sextets, List.mem_cons, List.mem_singleton, List.not_mem_nil, or_false]
      rintro n (rfl | rfl | rfl) <;> omega
  | case4 a b c rest ih =>
      have := a.toNat_lt
      have := b.toNat_lt
      have := c.toNat_lt
      simp only [sextets, List.mem_cons]
      rintro n (rfl | rfl | rfl | rfl | h)
      · omega
      · omega
      · omega
      · omega
      · exact ih n h

theorem sextetsOf_map_b64Char (ns : List Nat) (h : ∀ n ∈ ns, n < 64) :
    sextetsOf (ns.map b64Char) = some ns := by
  induction ns with
  | nil => rfl
  | cons n ns ih =>
      have h1 := b64Val_b64Char n (h n (List.mem_cons_self _ _))
      have h2 := ih (fun m hm => h m (List.mem_cons_of_mem _ hm))
      simp [sextetsOf, h1, h2]

theorem filter_newline_map_b64Char (ns : List Nat) (h : ∀ n ∈ ns, n < 64) :
    (ns.map b64Char).filter (fun c => c != '\r' && c != '\n') = ns.map b64Char := by
  rw [List.filter_eq_self]
  intro c hc
  obtain ⟨n, hn, rfl⟩ := List.mem_map.1 hc
  exact b64Char_not_newline n (h n hn)

theorem ofNat_toNat (a : UInt8) : UInt8.ofNat a.toNat = a := by
  apply UInt8.eq_of_val_eq
  simp [UInt8.ofNat, UInt8.toNat]

theorem unsextets_sextets (bs : List UInt8) : unsextets (sextets bs) = some bs := by
  induction bs using sextets.induct with
  | case1 => rfl
  | case2 a =>
      have := a.toNat_lt
      simp only [sextets, unsextets]
      have e : (a.toNat * 65536 / 262144 * 262144 + a.toNat * 65536 / 4096 % 64 * 4096) / 65536
          = a.toNat := by omega
      rw [e, ofNat_toNat]
  | case3 a b =>
      have := a.toNat_lt
      have := b.toNat_lt
      simp only [sextets, unsextets]
      generalize hv : a.toNat * 65536 + b.toNat * 256 = v
      have e1 : (v / 262144 * 262144 + v / 4096 % 64 * 4096 + v / 64 % 64 * 64) / 65536
          = a.toNat := by omega
      have e2 : (v / 262144 * 262144 + v / 4096 % 64 * 4096 + v / 64 % 64 * 64) / 256 % 256
          = b.toNat := by omega
      rw [e1, e2, ofNat_toNat, ofNat_toNat]
  | case4 a b c rest ih =>
      have := a.toNat_lt
      have := b.toNat_lt
      have := c.toNat_lt
      simp only [sextets, unsextets, ih]
      generalize hv : a.toNat * 65536 + b.toNat * 256 + c.toNat = v
      have e1 : (v / 262144 * 262144 + v / 4096 % 64 * 4096 + v / 64 % 64 * 64 + v % 64) / 65536
          = a.toNat := by omega
      have e2 : (v / 262144 * 262144 + v / 4096 % 64 * 4096 + v / 64 % 64 * 64 + v % 64) / 256
          % 256 = b.toNat := by omega
      have e3 : (v / 262144 * 262144 + v / 4096 % 64 * 4096 + v / 64 % 64 * 64 + v % 64) % 256
          = c.toNat := by omega
      rw [e1, e2, e3, ofNat_toNat, ofNat_toNat, ofNat_toNat]

theorem rawStdDecode_rawStdEncode (bs : List UInt8) :
    rawStdDecode (rawStdEncode bs) = some bs := by
  have h1 := filter_newline_map_b64Char _ (sextets_lt bs)
  have h2 := sextetsOf_map_b64Char _ (sextets_lt bs)
  simp only [rawStdDecode, rawStdEncode, String.toList, h1, h2]
  exact unsextets_sextets bs

theorem length_sextets (bs : List UInt8) : (sextets bs).length = (4 * bs.length + 2) / 3 := by
  induction bs using sextets.induct with
  | case1 => rfl
  | case2 a => simp [sextets]
  | case3 a b => simp [sextets]
  | case4 a b c rest ih =>
      simp only [sextets, List.length_cons, ih]
      omega

theorem length_rawStdEncode (bs : List UInt8) :
    (rawStdEncode bs).length = (4 * bs.length + 2) / 3 := by
  simp [rawStdEncode, length_sextets]

theorem length_hexChars (bs : List UInt8) : (hexChars bs).length = 2 * bs.length := by
  induction bs with
  | nil => rfl
  | cons b bs ih => simp only [hexChars, hexByte, List.length_append, List.length_cons,
      List.length_nil, ih]; omega

theorem length_hexEncode (bs : List UInt8) : (hexEncode bs).length = 2 * bs.length := by
  simp [hexEncode, length_hexChars]

theorem hexDigit_mem (n : Nat) (h : n < 16) : hextable.getD n '0' ∈ hextable := by
  have key : ∀ k : Fin 16, hextable.getD k.val '0' ∈ hextable := by decide
  exact key ⟨n, h⟩

theorem hexChars_lowercase (bs : List UInt8) : ∀ c ∈ hexChars bs, c ∈ hextable := by
  induction bs with
  | nil => intro c hc; simp [hexChars] at hc
  | cons b bs ih =>
      intro c hc
      have hb := b.toNat_lt
      simp only [hexChars, hexByte, List.cons_append, List.nil_append, List.mem_cons] at hc
      rcases hc with rfl | rfl | hc
      · exact hexDigit_mem _ (by omega)
      · exact hexDigit_mem _ (by omega)
      · exact ih c hc

/-! ## Password hashing -/

theorem verifyArgon2_own_hash (lib : Libs) (password : String) (salt : List UInt8) :
    verifyArgon2 lib password (rawStdEncode salt)
      (rawStdEncode (lib.IDKey (bytesOf password) salt 1 (64 * 1024) 4 32).val) = true := by
  simp [verifyArgon2, rawStdDecode_rawStdEncode]

theorem length_ne_of_hex_of_raw (digest key : Bytes 32) :
    rawStdEncode key.val ≠ hexEncode digest.val := by
  intro h
  have h1 := length_rawStdEncode key.val
  have h2 := length_hexEncode digest.val
  rw [h, h2, digest.property, key.property] at h1
  omega

theorem verifyArgon2_hex_false (lib : Libs) (password salt : String) (digest : Bytes 32) :
    verifyArgon2 lib password salt (hexEncode digest.val) = false := by
  unfold verifyArgon2
  cases rawStdDecode salt with
  | none => rfl
  | some bs => simpa using length_ne_of_hex_of_raw digest _

/-- C1: for every password and every 16-byte salt that `rand.Read` returns,
`hashPasswordArgon2` succeeds and `verifyPassword` accepts the password against the salt,
hash and format of its result. -/
theorem verify_after_hash (lib : Libs) (password : String) (salt : Bytes 16) :
    ∃ r, hashPasswordArgon2 lib (.ok salt) password = .ok r ∧
      verifyPassword lib password r.Salt r.Hash r.Format = true := by
  refine ⟨_, rfl, ?_⟩
  have h := verifyArgon2_own_hash lib password salt.val
  simpa [verifyPassword] using h

/-- C2: for every password and salt, the legacy pair `(salt, hash)` whose hash is the
lowercase hex SHA-256 of `password ++ salt` verifies under the format `legacy_sha256` and
fails under `argon2id`; and the pair that `hashPasswordArgon2` produces, the unpadded
base64 of the 16 random bytes and of the Argon2id key derived from them, verifies under
`argon2id` and fails under `legacy_sha256`. -/
theorem format_is_explicit (lib : Libs) (password salt : String) (randSalt : Bytes 16) :
    (verifyPassword lib password salt
        (hexEncode (lib.sha256 (bytesOf (password ++ salt))).val) "legacy_sha256" = true ∧
      verifyPassword lib password salt
        (hexEncode (lib.sha256 (bytesOf (password ++ salt))).val) "argon2id" = false) ∧
    hashPasswordArgon2 lib (.ok randSalt) password =
      .ok { Hash := rawStdEncode (lib.IDKey (bytesOf password) randSalt.val 1 (64 * 1024) 4 32).val,
            Salt := rawStdEncode randSalt.val, Format := "argon2id" } ∧
    verifyPassword lib password (rawStdEncode randSalt.val)
      (rawStdEncode (lib.IDKey (bytesOf password) randSalt.val 1 (64 * 1024) 4 32).val) "argon2id"
      = true ∧
    verifyPassword lib password (rawStdEncode randSalt.val)
      (rawStdEncode (lib.IDKey (bytesOf password) randSalt.val 1 (64 * 1024) 4 32).val)
      "legacy_sha256" = false := by
  refine ⟨⟨?_, ?_⟩, rfl, ?_, ?_⟩
  · have hne : ("legacy_sha256" == "argon2id") = false := by decide
    unfold verifyPassword
    rw [hne]
    simp [hashPasswordSHA256]
  · have h := verifyArgon2_hex_false lib password salt
      (lib.sha256 (bytesOf (password ++ salt)))
    simpa [verifyPassword] using h
  · have h := verifyArgon2_own_hash lib password randSalt.val
    simpa [verifyPassword] using h
  · have h := length_ne_of_hex_of_raw
      (lib.sha256 (bytesOf (password ++ rawStdEncode randSalt.val)))
      (lib.IDKey (bytesOf password) randSalt.val 1 (64 * 1024) 4 32)
    have hne : ("legacy_sha256" == "argon2id") = false := by decide
    unfold verifyPassword
    rw [hne]
    simp only [hashPasswordSHA256, Bool.false_eq_true, if_false]
    simpa using fun e => h e.symm

/-- C10: under every format tag other than `argon2id` (the empty tag and unknown tags
included) `verifyPassword` returns true exactly when the hex SHA-256 of `password ++ salt`
equals the stored hash, and that hex string is 64 characters among `0123456789abcdef`
(lowercase); the tag itself is never rejected. -/
theorem verify_other_format (lib : Libs) (password salt hash format : String)
    (h : format ≠ "argon2id") :
    (verifyPassword lib password salt hash format = true ↔
      hexEncode (lib.sha256 (bytesOf (password ++ salt))).val = hash) ∧
    (hexEncode (lib.sha256 (bytesOf (password ++ salt))).val).length = 64 ∧
    ∀ c ∈ (hexEncode (lib.sha256 (bytesOf (password ++ salt))).val).toList,
      c ∈ "0123456789abcdef".toList := by
  refine ⟨?_, ?_, ?_⟩
  · have hne : (format == "argon2id") = false := by simpa using h
    unfold verifyPassword
    rw [hne]
    simp [hashPasswordSHA256]
  · rw [length_hexEncode, (lib.sha256 _).property]
  · intro c hc
    exact hexChars_lowercase _ c hc

/-- C10 at the empty tag: the stored hash `00` is compared with the 64 hex digits of the
digest, whatever the tag says. -/
theorem verify_other_format_witness :
    (verifyPassword toyLibs "pw" "salt" "00" "" = true ↔
      hexEncode (toyLibs.sha256 (bytesOf ("pw" ++ "salt"))).val = "00") ∧
    (hexEncode (toyLibs.sha256 (bytesOf ("pw" ++ "salt"))).val).length = 64 ∧
    ∀ c ∈ (hexEncode (toyLibs.sha256 (bytesOf ("pw" ++ "salt"))).val).toList,
      c ∈ "0123456789abcdef".toList :=
  verify_other_format toyLibs "pw" "salt" "00" "" (by decide)

/-! ## The document store -/

theorem lookupPath_single (key : String) (d : Document) :
    lookupPath [key] (.doc d) = d.lookup key := by
  simp only [lookupPath]
  cases d.lookup key <;> rfl

theorem matches_scanFilter (now : Time) (d : Document)
    (h : matchesFilter (scanFilter now) d = true) :
    d.lookup "is_random" = some (.bool true) ∧
      ∃ ms, d.lookup "expires_at" = some (.date ms) ∧ ms ≤ toDateTime now := by
  simp only [matchesFilter, scanFilter, List.all_cons, List.all_nil, Bool.and_true,
    Bool.and_eq_true, lookupPath_single] at h
  obtain ⟨h1, h2⟩ := h
  constructor
  · cases hv : d.lookup "is_random" with
    | none => simp [hv, Condition.holds] at h1
    | some v =>
        cases v <;> simp [hv, Condition.holds] at h1
        simp [h1]
  · cases hv : d.lookup "expires_at" with
    | none => simp [hv, Condition.holds] at h2
    | some v =>
        cases v <;> simp [hv, Condition.holds] at h2
        exact ⟨_, rfl, h2⟩

theorem matches_deleteFilter (name : String) (d : Document) :
    matchesFilter (deleteFilter name) d = true ↔ topUsername d = some name := by
  simp only [matchesFilter, deleteFilter, List.all_cons, List.all_nil, Bool.and_true,
    lookupPath_single, topUsername]
  cases hv : d.lookup "username" with
  | none => simp [Condition.holds]
  | some v => cases v <;> simp [Condition.holds]

theorem scanFilter_misses_encoded (now : Time) (a : DatabaseUser) :
    matchesFilter (scanFilter now) (encodeDatabaseUser a) = false := by
  cases h : matchesFilter (scanFilter now) (encodeDatabaseUser a) with
  | false => rfl
  | true =>
      have h1 := (matches_scanFilter now _ h).1
      simp [encodeDatabaseUser, List.lookup] at h1

theorem deleteFilter_misses_encoded (name : String) (a : DatabaseUser) :
    matchesFilter (deleteFilter name) (encodeDatabaseUser a) = false := by
  cases h : matchesFilter (deleteFilter name) (encodeDatabaseUser a) with
  | false => rfl
  | true =>
      have h1 := (matches_deleteFilter name _).1 h
      simp [encodeDatabaseUser, topUsername, List.lookup] at h1

/-! ## The delete loop of `checkAndDeleteExpired` -/

theorem deleteExpired_notifications (deleteErr : Nat → Option String) (now : Time) :
    ∀ (expired : List User) (k : Nat) (store : Store) (acc : List ExpiryNotification),
      (deleteExpired deleteErr now k expired store acc).1 =
        acc ++ ((expired.enumFrom k).filter (fun p => (deleteErr p.1).isNone)).map
          (fun p => { Username := p.2.Username, DeletedAt := now }) := by
  intro expired
  induction expired with
  | nil => intro k store acc; simp [deleteExpired]
  | cons user rest ih =>
      intro k store acc
      cases hk : deleteErr k with
      | none => simp [deleteExpired, DeleteOne, hk, ih, List.enumFrom_cons]
      | some msg => simp [deleteExpired, DeleteOne, hk, ih, List.enumFrom_cons]

theorem deleteResults_getElem (deleteErr : Nat → Option String) :
    ∀ (expired : List User) (k : Nat) (store : Store) (i : Nat) (r : Except Error Nat),
      (deleteResults deleteErr k expired store)[i]? = some r →
        ((∃ n, r = .ok n) ↔ deleteErr (k + i) = none) := by
  intro expired
  induction expired with
  | nil => intro k store i r h; simp [deleteResults] at h
  | cons user rest ih =>
      intro k store i r h
      cases i with
      | zero =>
          simp only [deleteResults, List.getElem?_cons_zero, Option.some.injEq] at h
          subst h
          cases hk : deleteErr k <;> simp [DeleteOne, hk]
      | succ i =>
          simp only [deleteResults, List.getElem?_cons_succ] at h
          have := ih (k + 1) _ i r h
          rw [this]
          have e : k + 1 + i = k + (i + 1) := by omega
          rw [e]

theorem length_deleteResults (deleteErr : Nat → Option String) :
    ∀ (expired : List User) (k : Nat) (store : Store),
      (deleteResults deleteErr k expired store).length = expired.length := by
  intro expired
  induction expired with
  | nil => intro k store; rfl
  | cons user rest ih => intro k store; simp [deleteResults, ih]

theorem deleteExpired_store (deleteErr : Nat → Option String) (now : Time) :
    ∀ (expired : List User) (k : Nat) (store : Store) (acc : List ExpiryNotification),
      (deleteExpired deleteErr now k expired store acc).2.Sublist store ∧
      ∀ d ∈ store, d ∉ (deleteExpired deleteErr now k expired store acc).2 →
        ∃ u ∈ expired, topUsername d = some u.Username := by
  intro expired
  induction expired with
  | nil => intro k store acc; simp [deleteExpired]
  | cons user rest ih =>
      intro k store acc
      cases hk : deleteErr k with
      | some msg =>
          simp only [deleteExpired, DeleteOne, hk]
          obtain ⟨h1, h2⟩ := ih (k + 1) store acc
          refine ⟨h1, fun d hd hnot => ?_⟩
          obtain ⟨u, hu, hname⟩ := h2 d hd hnot
          exact ⟨u, List.mem_cons_of_mem _ hu, hname⟩
      | none =>
          simp only [deleteExpired, DeleteOne, hk]
          obtain ⟨h1, h2⟩ := ih (k + 1) (store.eraseP (matchesFilter (deleteFilter user.Username)))
            (acc ++ [{ Username := user.Username, DeletedAt := now }])
          refine ⟨h1.trans (List.eraseP_sublist _), fun d hd hnot => ?_⟩
          by_cases hm : matchesFilter (deleteFilter user.Username) d = true
          · exact ⟨user, List.mem_cons_self _ _, (matches_deleteFilter _ _).1 hm⟩
          · have hd' : d ∈ store.eraseP (matchesFilter (deleteFilter user.Username)) :=
              (List.mem_eraseP_of_neg hm).2 hd
            obtain ⟨u, hu, hname⟩ := h2 d hd' hnot
            exact ⟨u, List.mem_cons_of_mem _ hu, hname⟩

theorem deleted_counts_add_up (deleteErr : Nat → Option String) (now : Time) :
    ∀ (expired : List User) (k : Nat) (store : Store) (acc : List ExpiryNotification),
      (deleteExpired deleteErr now k expired store acc).2.length +
        ((deleteResults deleteErr k expired store).map
          (fun r => match r with | .ok n => n | .error _ => 0)).sum = store.length := by
  intro expired
  induction expired with
  | nil => intro k store acc; simp [deleteExpired, deleteResults]
  | cons user rest ih =>
      intro k store acc
      cases hk : deleteErr k with
      | some msg =>
          simp only [deleteExpired, deleteResults, DeleteOne, hk, List.map_cons, List.sum_cons]
          have := ih (k + 1) store acc
          omega
      | none =>
          simp only [deleteExpired, deleteResults, DeleteOne, hk, List.map_cons, List.sum_cons]
          have h1 := ih (k + 1) (store.eraseP (matchesFilter (deleteFilter user.Username)))
            (acc ++ [{ Username := user.Username, DeletedAt := now }])
          have h2 := List.length_eraseP (l := store)
            (p := matchesFilter (deleteFilter user.Username))
          by_cases hany : store.any (matchesFilter (deleteFilter user.Username)) = true
          · have hpos : 0 < store.length := by
              cases store with
              | nil => simp at hany
              | cons d ds => simp
            simp only [hany, if_true] at h2 ⊢
            omega
          · simp only [hany] at h2 ⊢
            simp only [Bool.false_eq_true, if_false] at h2 ⊢
            omega

/-- C3 is false of the code. Two connections scan the collection `[anon_a]` at time `Hour`
and both find the account; the first one deletes it; the `DeleteOne` of the second one
then returns without error and with deleted count 0, and the second loop still returns the
notification for `anon_a`. -/
theorem notification_without_removal :
    findExpired toyLibs none Hour [flatAccount "anon_a" true 0] = .ok [anonA] ∧
    (checkAndDeleteExpired toyLibs none (fun _ => none) Hour [flatAccount "anon_a" true 0]).2 = [] ∧
    DeleteOne none [] (deleteFilter "anon_a") = (.ok 0, []) ∧
    (deleteExpired (fun _ => none) Hour 0 [anonA] [] []).1 =
      [{ Username := "anon_a", DeletedAt := Hour }] := by
  refine ⟨?_, ?_, ?_, ?_⟩
  · rfl
  · rfl
  · rfl
  · rfl

/-- C3 as amended: a notification `{username, now}` is returned for every scanned account
whose `DeleteOne` call returns without error, whatever deleted count `n` it reports (0
included); and every notification returned comes from such a call. Only the calls that
return an error are skipped. -/
theorem notification_iff_delete_without_error (deleteErr : Nat → Option String) (now : Time)
    (expired : List User) (store : Store) :
    (∀ (k : Nat) (u : User) (n : Nat), expired[k]? = some u →
      (deleteResults deleteErr 0 expired store)[k]? = some (.ok n) →
      ({ Username := u.Username, DeletedAt := now } : ExpiryNotification) ∈
        (deleteExpired deleteErr now 0 expired store []).1) ∧
    (∀ x ∈ (deleteExpired deleteErr now 0 expired store []).1,
      ∃ (k : Nat) (u : User) (n : Nat), expired[k]? = some u ∧
        (deleteResults deleteErr 0 expired store)[k]? = some (.ok n) ∧
        x = { Username := u.Username, DeletedAt := now }) := by
  rw [deleteExpired_notifications]
  constructor
  · intro k u n hu hr
    have hk := (deleteResults_getElem deleteErr expired 0 store k (.ok n) hr).1 ⟨n, rfl⟩
    rw [Nat.zero_add] at hk
    simp only [List.nil_append, List.mem_map, List.mem_filter]
    refine ⟨(k, u), ⟨?_, by simp [hk]⟩, rfl⟩
    have := (List.mk_add_mem_enumFrom_iff_getElem? (n := 0) (i := k) (x := u) (l := expired)).2 hu
    simpa using this
  · intro x hx
    simp only [List.nil_append, List.mem_map, List.mem_filter] at hx
    obtain ⟨⟨k, u⟩, ⟨hmem, hk⟩, rfl⟩ := hx
    have hu : expired[k]? = some u := by
      have := (List.mk_add_mem_enumFrom_iff_getElem? (n := 0) (i := k) (x := u) (l := expired)).1
        (by simpa using hmem)
      exact this
    have hlt : k < (deleteResults deleteErr 0 expired store).length := by
      rw [length_deleteResults]
      exact (List.getElem?_eq_some_iff.1 hu).1
    have hr : (deleteResults deleteErr 0 expired store)[k]? =
        some ((deleteResults deleteErr 0 expired store)[k]) := List.getElem?_eq_getElem hlt
    have hnone : deleteErr (0 + k) = none := by simpa using hk
    obtain ⟨n, hn⟩ := (deleteResults_getElem deleteErr expired 0 store k _ hr).2 hnone
    exact ⟨k, u, n, hu, hr.trans (congrArg some hn), rfl⟩

/-- C3 as amended, where the record is already gone: the delete of `anon_a` on the empty
collection reports deleted count 0 and the notification is returned. -/
theorem notification_iff_delete_without_error_witness :
    ({ Username := "anon_a", DeletedAt := Hour } : ExpiryNotification) ∈
      (deleteExpired (fun _ => none) Hour 0 [anonA] [] []).1 :=
  (notification_iff_delete_without_error (fun _ => none) Hour [anonA] []).1 0 anonA 0 rfl rfl

/-! ## `ExpiryCheck` -/

theorem writeAll_written (writeErr : Nat → Bool) :
    ∀ (ns : List ExpiryNotification) (i : Nat) (acc : List WSMessage),
      (writeAll writeErr i ns acc).1 =
        acc ++ ((ns.enumFrom i).takeWhile (fun p => !writeErr p.1)).map
          (fun p => WSMessage.expiry p.2) := by
  intro ns
  induction ns with
  | nil => intro i acc; simp [writeAll]
  | cons n rest ih =>
      intro i acc
      cases hw : writeErr i with
      | true => simp [writeAll, hw, List.enumFrom_cons, List.takeWhile_cons]
      | false => simp [writeAll, hw, ih, List.enumFrom_cons, List.takeWhile_cons]

theorem takeWhile_always {α : Type} (l : List α) : l.takeWhile (fun _ => true) = l := by
  induction l with
  | nil => rfl
  | cons a l ih => simp [List.takeWhile, ih]

theorem map_snd_enumFrom {α β : Type} (f : α → β) (l : List α) :
    ∀ n, (List.enumFrom n l).map (fun p => f p.2) = l.map f := by
  induction l with
  | nil => intro n; rfl
  | cons a l ih => intro n; simp [List.enumFrom, ih]

/-- C9: when the scan query returns the accounts `expired`, the notifications that
`checkAndDeleteExpired` returns are, in the same order, the user names of the scanned
accounts whose `DeleteOne` call did not fail, each with `deleted_at` equal to the one scan
time; and `ExpiryCheck` writes them to the connection in that order: all of them when no
write fails, and otherwise those before the first write that fails. -/
theorem notifications_in_discovery_order (lib : Libs) (t : Tick) (store : Store) (expired : List User)
    (written : List WSMessage) (hscan : findExpired lib t.findErr t.now store = .ok expired) :
    (checkAndDeleteExpired lib t.findErr t.deleteErr t.now store).1 =
      .ok (((expired.enum.filter (fun p => (t.deleteErr p.1).isNone)).map
        (fun p => ({ Username := p.2.Username, DeletedAt := t.now } : ExpiryNotification)))) ∧
    (ExpiryCheck lib [.tick t] store written).1 =
      written ++
        ((((expired.enum.filter (fun p => (t.deleteErr p.1).isNone)).map
          (fun p => ({ Username := p.2.Username, DeletedAt := t.now } : ExpiryNotification))).enum.takeWhile
            (fun p => !t.writeErr p.1)).map (fun p => WSMessage.expiry p.2)) ∧
    ((∀ i, t.writeErr i = false) →
      (ExpiryCheck lib [.tick t] store written).1 =
        written ++
          ((expired.enum.filter (fun p => (t.deleteErr p.1).isNone)).map
            (fun p => WSMessage.expiry { Username := p.2.Username, DeletedAt := t.now }))) := by
  have h1 : checkAndDeleteExpired lib t.findErr t.deleteErr t.now store =
      (.ok (deleteExpired t.deleteErr t.now 0 expired store []).1,
        (deleteExpired t.deleteErr t.now 0 expired store []).2) := by
    simp [checkAndDeleteExpired, hscan]
  have h2 := deleteExpired_notifications t.deleteErr t.now expired 0 store []
  rw [List.nil_append] at h2
  have h4 : (ExpiryCheck lib [.tick t] store written).1 =
      written ++
        ((((expired.enum.filter (fun p => (t.deleteErr p.1).isNone)).map
          (fun p => ({ Username := p.2.Username, DeletedAt := t.now } : ExpiryNotification))).enum.takeWhile
            (fun p => !t.writeErr p.1)).map (fun p => WSMessage.expiry p.2)) := by
    simp only [ExpiryCheck, h1]
    have h3 := writeAll_written t.writeErr (deleteExpired t.deleteErr t.now 0 expired store []).1
      0 written
    split
    · rename_i w hw
      rw [hw, h2] at h3
      simpa [ExpiryCheck, List.enum] using h3
    · rename_i w hw
      rw [hw, h2] at h3
      simpa [List.enum] using h3
  refine ⟨by rw [h1, h2]; rfl, h4, fun hw => ?_⟩
  rw [h4]
  have hall : (fun p : Nat × ExpiryNotification => !t.writeErr p.1) = fun _ => true := by
    funext p
    simp [hw p.1]
  rw [hall, takeWhile_always, List.enum, map_snd_enumFrom, List.map_map]
  rfl

/-- C9 on `orderStore` at time `Hour`: the scan finds `anon_z`, `anon_m` and `anon_a`, in
that order; the delete of `anon_m` fails. The notifications are those of `anon_z` and
`anon_a`, in that order, both with the scan time; they are what the connection receives,
and only the first of them when the second write fails. -/
theorem notifications_in_discovery_order_witness :
    (checkAndDeleteExpired toyLibs none roughTick.deleteErr Hour orderStore).1 =
      .ok [{ Username := "anon_z", DeletedAt := Hour }, { Username := "anon_a", DeletedAt := Hour }] ∧
    (ExpiryCheck toyLibs [.tick roughTick] orderStore []).1 =
      [.expiry { Username := "anon_z", DeletedAt := Hour },
       .expiry { Username := "anon_a", DeletedAt := Hour }] ∧
    (ExpiryCheck toyLibs [.tick brokenTick] orderStore []).1 =
      [.expiry { Username := "anon_z", DeletedAt := Hour }] :=
  ⟨(notifications_in_discovery_order toyLibs roughTick orderStore
      [scanned "anon_z", scanned "anon_m", scanned "anon_a"] [] rfl).1,
   (notifications_in_discovery_order toyLibs roughTick orderStore
      [scanned "anon_z", scanned "anon_m", scanned "anon_a"] [] rfl).2.2 (fun _ => rfl),
   (notifications_in_discovery_order toyLibs brokenTick orderStore
      [scanned "anon_z", scanned "anon_m", scanned "anon_a"] [] rfl).2.1⟩

/-! ## `RandomAcc` -/

theorem RandomAcc_created (lib : Libs) (h : AuthHandler) (env : RandomAccEnv) (store : Store)
    (hok : (RandomAcc lib h env store).1.status = 201) :
    ∃ pwHash token,
      RandomAcc lib h env store =
        (⟨201, [("username", .str ("anon_" ++ mustGenerateString 12 env.drawUsername)),
                ("password", .str (mustGenerateString 16 env.drawPassword)),
                ("token", .str token),
                ("expires_at", formatRFC3339 (env.now + 30 * 24 * Hour))]⟩,
         store ++ [encodeDatabaseUser
            (randomUser ("anon_" ++ mustGenerateString 12 env.drawUsername) pwHash
              (env.now + 30 * 24 * Hour))]) := by
  unfold RandomAcc at hok ⊢
  cases hh : hashPasswordArgon2 lib env.randRead (mustGenerateString 16 env.drawPassword) with
  | error e => simp [hh] at hok
  | ok pwHash =>
      cases hi : env.insertOneErr with
      | some msg => simp [hh, hi, InsertOne] at hok
      | none =>
          cases ht : generateToken lib env.tokenNow
              ("anon_" ++ mustGenerateString 12 env.drawUsername) h.jwtSecret with
          | error e => simp [hh, hi, InsertOne, ht] at hok
          | ok token => exact ⟨pwHash, token, by simp [hh, hi, InsertOne, ht]⟩

theorem findExpired_accounts (lib : Libs) (now : Time) (store : Store) (hacc : HoldsAccounts store) :
    findExpired lib none now store = .ok [] := by
  have : store.filter (matchesFilter (scanFilter now)) = [] := by
    rw [List.filter_eq_nil_iff]
    intro d hd
    obtain ⟨a, rfl⟩ := hacc d hd
    simp [scanFilter_misses_encoded]
  simp [findExpired, Find, this, decodeAll]

theorem checkAndDeleteExpired_accounts (lib : Libs) (now : Time) (store : Store)
    (hacc : HoldsAccounts store) :
    checkAndDeleteExpired lib none (fun _ => none) now store = (.ok [], store) := by
  simp [checkAndDeleteExpired, findExpired_accounts lib now store hacc, deleteExpired]

theorem floor_second (x : Int) :
    x / 1000000000 * 1000000000 ≤ x ∧ x < x / 1000000000 * 1000000000 + 1000000000 := by
  omega

theorem floor_second_of_whole (x : Int) (h : x % 1000000000 = 0) :
    (x + 30 * 24 * 3600000000000) / 1000000000 * 1000000000 = x + 30 * 24 * 3600000000000 := by
  omega

theorem holdsAccounts_append (store : Store) (a : DatabaseUser) (hacc : HoldsAccounts store) :
    HoldsAccounts (store ++ [encodeDatabaseUser a]) := by
  intro d hd
  rcases List.mem_append.1 hd with h | h
  · exact hacc d h
  · exact ⟨a, by simpa using h⟩

theorem topUsername_encoded (a : DatabaseUser) : topUsername (encodeDatabaseUser a) = none := by
  simp [topUsername, encodeDatabaseUser, List.lookup]

theorem checkAndDeleteExpired_keeps (lib : Libs) (findErr : Option String) (deleteErr : Nat → Option String)
    (now : Time) (store : Store) (d : Document) (htop : topUsername d = none)
    (hd : d ∈ store) : d ∈ (checkAndDeleteExpired lib findErr deleteErr now store).2 := by
  unfold checkAndDeleteExpired
  cases hfind : findExpired lib findErr now store with
  | error e => exact hd
  | ok expired =>
      by_contra hnot
      obtain ⟨u, _, hname⟩ := (deleteExpired_store deleteErr now expired 0 store []).2 d hd hnot
      rw [htop] at hname
      exact absurd hname (by simp)

theorem InsertOne_store (driverErr : Option String) (store store' : Store) (d : Document)
    (h : InsertOne driverErr store d = .ok store') : store' = store ++ [d] := by
  unfold InsertOne at h
  cases driverErr with
  | some msg => simp at h
  | none => simpa using h.symm

theorem Signup_store (lib : Libs) (env : SignupEnv) (parsed : Except Error User)
    (store : Store) :
    (Signup lib env parsed store).2 = store ∨
      ∃ a, (Signup lib env parsed store).2 = store ++ [encodeDatabaseUser a] := by
  unfold Signup
  split
  · exact Or.inl rfl
  · split
    · exact Or.inl rfl
    · split
      · exact Or.inl rfl
      · split
        · exact Or.inl rfl
        · split
          · exact Or.inl rfl
          · dsimp only
            split
            · exact Or.inl rfl
            · rename_i heq
              exact Or.inr ⟨_, InsertOne_store _ _ _ _ heq⟩

theorem RandomAcc_store (lib : Libs) (h : AuthHandler) (env : RandomAccEnv) (store : Store) :
    (RandomAcc lib h env store).2 = store ∨
      ∃ a, (RandomAcc lib h env store).2 = store ++ [encodeDatabaseUser a] := by
  unfold RandomAcc
  dsimp only
  split
  · exact Or.inl rfl
  · split
    · exact Or.inl rfl
    · rename_i heq
      split
      · exact Or.inr ⟨_, InsertOne_store _ _ _ _ heq⟩
      · exact Or.inr ⟨_, InsertOne_store _ _ _ _ heq⟩

theorem holdsAccounts_Signup (lib : Libs) (env : SignupEnv) (parsed : Except Error User)
    (store : Store) (hacc : HoldsAccounts store) :
    HoldsAccounts (Signup lib env parsed store).2 := by
  rcases Signup_store lib env parsed store with h | ⟨a, h⟩
  · rw [h]; exact hacc
  · rw [h]; exact holdsAccounts_append store a hacc

theorem holdsAccounts_RandomAcc (lib : Libs) (h : AuthHandler) (env : RandomAccEnv)
    (store : Store) (hacc : HoldsAccounts store) :
    HoldsAccounts (RandomAcc lib h env store).2 := by
  rcases RandomAcc_store lib h env store with h' | ⟨a, h'⟩
  · rw [h']; exact hacc
  · rw [h']; exact holdsAccounts_append store a hacc

theorem holdsAccounts_checkAndDeleteExpired (lib : Libs) (findErr : Option String)
    (deleteErr : Nat → Option String) (now : Time) (store : Store)
    (hacc : HoldsAccounts store) :
    HoldsAccounts (checkAndDeleteExpired lib findErr deleteErr now store).2 := by
  intro d hd
  refine hacc d ?_
  unfold checkAndDeleteExpired at hd
  cases hfind : findExpired lib findErr now store with
  | error e => simpa [hfind] using hd
  | ok expired =>
      simp only [hfind] at hd
      exact (deleteExpired_store deleteErr now expired 0 store []).1.subset hd

/-- C4 on the code: whenever `RandomAcc` succeeds, the document `d` it inserts carries the
flag under `user.is_random` and has no top-level `is_random`; so at every scan time `now`
the scan filter of `checkAndDeleteExpired` does not match `d`, and whatever collection
holds `d` still holds it after the scan, whatever calls fail; on a collection that holds
only accounts as the handlers insert them, the scan returns no notification at all and
removes nothing. -/
theorem scan_misses_persisted_ephemeral (lib : Libs) (h : AuthHandler) (env : RandomAccEnv)
    (store : Store) (hok : (RandomAcc lib h env store).1.status = 201) :
    ∃ d, (RandomAcc lib h env store).2 = store ++ [d] ∧
      lookupPath ["user", "is_random"] (.doc d) = some (.bool true) ∧
      lookupPath ["is_random"] (.doc d) = none ∧
      ∀ (scanLib : Libs) (now : Time) (findErr : Option String)
        (deleteErr : Nat → Option String) (later : Store), d ∈ later →
        matchesFilter (scanFilter now) d = false ∧
        d ∈ (checkAndDeleteExpired scanLib findErr deleteErr now later).2 ∧
        (HoldsAccounts later →
          checkAndDeleteExpired scanLib none (fun _ => none) now later = (.ok [], later)) := by
  obtain ⟨pwHash, token, hrun⟩ := RandomAcc_created lib h env store hok
  refine ⟨_, by rw [hrun], ?_, ?_, ?_⟩
  · simp [lookupPath, encodeDatabaseUser, encodeUser, randomUser, List.lookup]
  · simp [lookupPath, encodeDatabaseUser, List.lookup]
  · intro scanLib now findErr deleteErr later hd
    exact ⟨scanFilter_misses_encoded now _,
      checkAndDeleteExpired_keeps scanLib findErr deleteErr now later _ (topUsername_encoded _)
        hd,
      checkAndDeleteExpired_accounts scanLib now later⟩

/-- C4 at a concrete input: the account created at time 0 on the empty collection is not
matched by a scan 30 days later, is still in the collection after it, and no notification
is returned. -/
theorem scan_misses_persisted_ephemeral_witness :
    ∃ d, (RandomAcc toyLibs toyHandler (calmRandomAcc 0) []).2 = [d] ∧
      matchesFilter (scanFilter (30 * 24 * Hour)) d = false ∧
      d ∈ (checkAndDeleteExpired toyLibs none (fun _ => none) (30 * 24 * Hour) [d]).2 ∧
      checkAndDeleteExpired toyLibs none (fun _ => none) (30 * 24 * Hour) [d] = (.ok [], [d]) :=
  match scan_misses_persisted_ephemeral toyLibs toyHandler (calmRandomAcc 0) [] rfl with
  | ⟨d, hrun, _, _, hscan⟩ =>
      ⟨d, hrun,
        (hscan toyLibs (30 * 24 * Hour) none (fun _ => none) [d] (List.mem_singleton.2 rfl)).1,
        (hscan toyLibs (30 * 24 * Hour) none (fun _ => none) [d] (List.mem_singleton.2 rfl)).2.1,
        (hscan toyLibs (30 * 24 * Hour) none (fun _ => none) [d] (List.mem_singleton.2 rfl)).2.2
          (show HoldsAccounts ([] ++ [d]) from
            hrun ▸ holdsAccounts_RandomAcc toyLibs toyHandler (calmRandomAcc 0) []
              (fun _ hy => absurd hy (List.not_mem_nil _)))⟩

/-- C8 is false of the code. `RandomAcc` at T = 1.500000001 s succeeds; T + 30 days is
2592001.500000001 s; the `expires_at` it returns denotes 2592001 s, and the stored
document holds 2592001500 ms: neither is the instant T + 30 days. -/
theorem returned_expiry_drops_subseconds :
    (RandomAcc toyLibs toyHandler oddRandomAcc []).1.status = 201 ∧
    oddRandomAcc.now + 30 * 24 * Hour = 2592001500000001 ∧
    (RandomAcc toyLibs toyHandler oddRandomAcc []).1.expiresAt = some 2592001000000000 ∧
    (RandomAcc toyLibs toyHandler oddRandomAcc []).1.expiresAt ≠
      some (oddRandomAcc.now + 30 * 24 * Hour) ∧
    (∃ d, (RandomAcc toyLibs toyHandler oddRandomAcc []).2 = [d] ∧
      lookupPath ["expires_at"] (.doc d) = some (.date 2592001500) ∧
      fromDateTime 2592001500 ≠ oddRandomAcc.now + 30 * 24 * Hour) := by
  refine ⟨rfl, rfl, rfl, by decide, _, rfl, rfl, by decide⟩

/-- C8 as amended: whenever `RandomAcc` run at time T succeeds, the account it hands to the
store has `ExpiresAt` exactly T + 30 * 24 hours (2592000 s, in nanoseconds) and
`IsRandom = true`; the inserted document keeps that instant in whole milliseconds under
`expires_at` and the flag under `user.is_random`; and the `expires_at` returned to the
caller denotes that instant in whole seconds: an instant `t` with
`t ≤ T + 30 days < t + 1 s`, equal to it when T is a whole number of seconds. -/
theorem ephemeral_lifetime (lib : Libs) (h : AuthHandler) (env : RandomAccEnv) (store : Store)
    (hok : (RandomAcc lib h env store).1.status = 201) :
    ∃ user : DatabaseUser,
      (RandomAcc lib h env store).2 = store ++ [encodeDatabaseUser user] ∧
      user.ExpiresAt = env.now + 30 * 24 * Hour ∧
      30 * 24 * Hour = 2592000 * Second ∧
      user.User.IsRandom = true ∧
      lookupPath ["expires_at"] (.doc (encodeDatabaseUser user)) =
        some (.date ((env.now + 30 * 24 * Hour) / Millisecond)) ∧
      lookupPath ["user", "is_random"] (.doc (encodeDatabaseUser user)) = some (.bool true) ∧
      (RandomAcc lib h env store).1.body.lookup "expires_at" =
        some (.rfc3339 ((env.now + 30 * 24 * Hour) / Second)) ∧
      ∃ t, (RandomAcc lib h env store).1.expiresAt = some t ∧
        t ≤ env.now + 30 * 24 * Hour ∧ env.now + 30 * 24 * Hour < t + Second ∧
        (env.now % Second = 0 → t = env.now + 30 * 24 * Hour) := by
  obtain ⟨pwHash, token, hrun⟩ := RandomAcc_created lib h env store hok
  have e1 : Hour = 3600000000000 := by decide
  have e2 : Second = 1000000000 := by decide
  refine ⟨_, by rw [hrun], rfl, by decide, rfl, ?_, ?_, ?_, ?_⟩
  · simp [lookupPath, encodeDatabaseUser, randomUser, List.lookup, toDateTime]
  · simp [lookupPath, encodeDatabaseUser, encodeUser, randomUser, List.lookup]
  · rw [hrun]
    simp [List.lookup, formatRFC3339, unixSeconds]
  · refine ⟨(env.now + 30 * 24 * Hour) / Second * Second, ?_, ?_, ?_, ?_⟩
    · rw [hrun]
      simp [Response.expiresAt, List.lookup, formatRFC3339, unixSeconds, JSON.instant]
    · rw [e2]
      exact (floor_second _).1
    · rw [e2]
      exact (floor_second _).2
    · rw [e1, e2]
      exact floor_second_of_whole env.now

/-- C8 as amended, at T = 0 on the empty collection. -/
theorem ephemeral_lifetime_witness :
    ∃ user : DatabaseUser,
      (RandomAcc toyLibs toyHandler (calmRandomAcc 0) []).2 = [] ++ [encodeDatabaseUser user] ∧
      user.ExpiresAt = (calmRandomAcc 0).now + 30 * 24 * Hour ∧
      30 * 24 * Hour = 2592000 * Second ∧
      user.User.IsRandom = true ∧
      lookupPath ["expires_at"] (.doc (encodeDatabaseUser user)) =
        some (.date (((calmRandomAcc 0).now + 30 * 24 * Hour) / Millisecond)) ∧
      lookupPath ["user", "is_random"] (.doc (encodeDatabaseUser user)) = some (.bool true) ∧
      (RandomAcc toyLibs toyHandler (calmRandomAcc 0) []).1.body.lookup "expires_at" =
        some (.rfc3339 (((calmRandomAcc 0).now + 30 * 24 * Hour) / Second)) ∧
      ∃ t, (RandomAcc toyLibs toyHandler (calmRandomAcc 0) []).1.expiresAt = some t ∧
        t ≤ (calmRandomAcc 0).now + 30 * 24 * Hour ∧
        (calmRandomAcc 0).now + 30 * 24 * Hour < t + Second ∧
        ((calmRandomAcc 0).now % Second = 0 → t = (calmRandomAcc 0).now + 30 * 24 * Hour) :=
  ephemeral_lifetime toyLibs toyHandler (calmRandomAcc 0) [] rfl

/-! ## `Signup` and `Login` -/

theorem unmarshalMember_password (lib : Libs) (u u' : User) (m : String × Member)
    (h : unmarshalMember lib u m = .ok u') : u'.Password = u.Password := by
  unfold unmarshalMember at h
  repeat' split at h
  all_goals first
    | (simp only [Except.ok.injEq] at h; subst h; rfl)
    | exact absurd h (by simp)

theorem unmarshalUser_password (lib : Libs) :
    ∀ (members : List (String × Member)) (u u' : User),
      unmarshalUser lib members u = .ok u' → u'.Password = u.Password := by
  intro members
  induction members with
  | nil =>
      intro u u' h
      simp only [unmarshalUser, Except.ok.injEq] at h
      rw [h]
  | cons m ms ih =>
      intro u u' h
      simp only [unmarshalUser] at h
      cases hm : unmarshalMember lib u m with
      | error e => simp [hm] at h
      | ok v =>
          simp only [hm] at h
          rw [ih v u' h, unmarshalMember_password lib u v m hm]

theorem signup_json_always_rejected (lib : Libs) (env : SignupEnv)
    (members : List (String × Member)) (store : Store) :
    (Signup lib env (BodyParserJSON lib members) store).1.status = 400 ∧
      (Signup lib env (BodyParserJSON lib members) store).2 = store := by
  cases hp : BodyParserJSON lib members with
  | error e => simp [Signup]
  | ok newUser =>
      have hpw : newUser.Password = "" := unmarshalUser_password lib members _ _ hp
      simp [Signup, hpw]

/-- C5 on the code: for the JSON body
`{"username":"alice","email":"a@x.com","password":"secret1"}` on the empty collection,
`BodyParser` leaves `Password` empty (its tag is `json:"-"`), `Signup` answers 400 "Missing
required fields" and stores nothing, and the `Login` that follows answers 401. -/
theorem signup_json_body_rejected :
    (BodyParserJSON toyLibs aliceBody).map (fun u => (u.Username, u.Email, u.Password)) =
      .ok ("alice", "a@x.com", "") ∧
    Signup toyLibs calmSignup (BodyParserJSON toyLibs aliceBody) [] =
      (⟨400, [("error", .str "Missing required fields")]⟩, []) ∧
    Login toyLibs toyHandler { findOneErr := none, now := 0 }
      (.ok { Username := "alice", Password := "secret1" }) [] =
      ⟨401, [("error", .str "Invalid credentials")]⟩ := by
  refine ⟨rfl, rfl, rfl⟩

theorem decodeString_ne_noDocuments (key : String) (v : BSON) :
    decodeString key v ≠ .error .ErrNoDocuments := by
  cases v <;> simp [decodeString]

theorem decodeBool_ne_noDocuments (key : String) (v : BSON) :
    decodeBool key v ≠ .error .ErrNoDocuments := by
  cases v <;> simp [decodeBool]

theorem decodeTime_ne_noDocuments (lib : Libs) (key : String) (v : BSON) :
    decodeTime lib key v ≠ .error .ErrNoDocuments := by
  cases v with
  | str s =>
      simp only [decodeTime]
      cases lib.timeParse s <;> simp
  | bool b => simp [decodeTime]
  | date ms => simp [decodeTime]
  | doc fields => simp [decodeTime]

theorem decodeUserElement_ne_noDocuments (lib : Libs) (u : User) (e : String × BSON) :
    decodeUserElement lib u e ≠ .error .ErrNoDocuments := by
  intro h
  unfold decodeUserElement at h
  repeat' split at h
  all_goals cases h
  all_goals
    rename_i heq
    first
      | exact absurd heq (decodeString_ne_noDocuments _ _)
      | exact absurd heq (decodeBool_ne_noDocuments _ _)
      | exact absurd heq (decodeTime_ne_noDocuments _ _ _)

theorem decodeUserElements_ne_noDocuments (lib : Libs) :
    ∀ (es : List (String × BSON)) (u : User),
      decodeUserElements lib es u ≠ .error .ErrNoDocuments := by
  intro es
  induction es with
  | nil => intro u; simp [decodeUserElements]
  | cons e rest ih =>
      intro u h
      simp only [decodeUserElements] at h
      cases he : decodeUserElement lib u e with
      | ok u1 =>
          simp only [he] at h
          exact ih u1 h
      | error err =>
          simp only [he, Except.error.injEq] at h
          subst h
          exact decodeUserElement_ne_noDocuments lib u e he

theorem decodeDatabaseUserElement_ne_noDocuments (lib : Libs) (a : DatabaseUser)
    (e : String × BSON) : decodeDatabaseUserElement lib a e ≠ .error .ErrNoDocuments := by
  intro h
  unfold decodeDatabaseUserElement at h
  repeat' split at h
  all_goals cases h
  all_goals
    rename_i heq
    first
      | exact absurd heq (decodeUserElements_ne_noDocuments _ _ _)
      | exact absurd heq (decodeTime_ne_noDocuments _ _ _)

theorem decodeDatabaseUser_ne_noDocuments (lib : Libs) (d : Document) :
    decodeDatabaseUser lib d ≠ .error .ErrNoDocuments := by
  have key : ∀ (es : List (String × BSON)) (a : DatabaseUser),
      decodeDatabaseUserElements lib es a ≠ .error .ErrNoDocuments := by
    intro es
    induction es with
    | nil => intro a; simp [decodeDatabaseUserElements]
    | cons e rest ih =>
        intro a h
        simp only [decodeDatabaseUserElements] at h
        cases he : decodeDatabaseUserElement lib a e with
        | ok a1 =>
            simp only [he] at h
            exact ih a1 h
        | error err =>
            simp only [he, Except.error.injEq] at h
            subst h
            exact decodeDatabaseUserElement_ne_noDocuments lib a e he
  exact key d _

theorem decodeDatabaseUser_encode_eq (lib : Libs) (a : DatabaseUser) :
    decodeDatabaseUser lib (encodeDatabaseUser a) =
      .ok { User := { a.User with ExpiresAt := fromDateTime (toDateTime a.User.ExpiresAt) },
            ExpiresAt := fromDateTime (toDateTime a.ExpiresAt) } := by
  have k1 : fieldKey databaseUserKeys "user" = some "user" := by decide
  have k2 : fieldKey databaseUserKeys "expires_at" = some "expires_at" := by decide
  have u1 : fieldKey userKeys "username" = some "username" := by decide
  have u2 : fieldKey userKeys "email" = some "email" := by decide
  have u3 : fieldKey userKeys "password" = some "password" := by decide
  have u4 : fieldKey userKeys "salt" = some "salt" := by decide
  have u5 : fieldKey userKeys "format" = some "format" := by decide
  have u6 : fieldKey userKeys "is_random" = some "is_random" := by decide
  have u7 : fieldKey userKeys "expires_at" = some "expires_at" := by decide
  simp [decodeDatabaseUser, decodeDatabaseUserElements, decodeDatabaseUserElement,
    encodeDatabaseUser, decodeUserElements, decodeUserElement, encodeUser, decodeString,
    decodeBool, decodeTime, k1, k2, u1, u2, u3, u4, u5, u6, u7, User.zero]

theorem matches_username_encoded (name : String) (a : DatabaseUser) :
    matchesFilter [(["user", "username"], .eqStr name)] (encodeDatabaseUser a) =
      (a.User.Username == name) := by
  simp [matchesFilter, lookupPath, encodeDatabaseUser, encodeUser, List.lookup, Condition.holds]

/-- C7 is false of the code. The request `aliceRequest` has its three fields and
`aliceStore` holds the account `alice`; when the `FindOne` call fails with a driver error
`Signup` answers 500 "Database error", and so it does when the first document that carries
the user name does not decode (its `email` is a boolean). The collection is unchanged in
both runs. -/
theorem signup_conflict_answers_500 :
    (aliceRequest.Username ≠ "" ∧ aliceRequest.Email ≠ "" ∧ aliceRequest.Password ≠ "") ∧
    encodeDatabaseUser aliceAccount ∈ aliceStore ∧
    aliceAccount.User.Username = aliceRequest.Username ∧
    Signup toyLibs lostSignup (.ok aliceRequest) aliceStore =
      (⟨500, [("error", .str "Database error")]⟩, aliceStore) ∧
    encodeDatabaseUser aliceAccount ∈ brokenAlice :: aliceStore ∧
    Signup toyLibs calmSignup (.ok aliceRequest) (brokenAlice :: aliceStore) =
      (⟨500, [("error", .str "Database error")]⟩, brokenAlice :: aliceStore) := by
  refine ⟨by decide, List.mem_singleton.2 rfl, rfl, rfl, ?_, rfl⟩
  exact List.mem_cons_of_mem _ (List.mem_singleton.2 rfl)

/-- C7 as amended: when the decoded request of `Signup` has a non-empty user name, email
and password and the collection already holds an account with that user name, the
collection is unchanged after `Signup` (nothing is inserted, no document is modified) and
the answer is 409 or 500 "Database error": 409 exactly when the `FindOne` call returns no
driver error and the first document it matches decodes as a `DatabaseUser`, which is so on
every collection that holds accounts as the handlers insert them. -/
theorem signup_conflict (lib : Libs) (env : SignupEnv) (newUser : User) (store : Store)
    (existing : DatabaseUser) (hname : newUser.Username ≠ "") (hemail : newUser.Email ≠ "")
    (hpass : newUser.Password ≠ "") (hmem : encodeDatabaseUser existing ∈ store)
    (hsame : existing.User.Username = newUser.Username) :
    (Signup lib env (.ok newUser) store).2 = store ∧
    ((Signup lib env (.ok newUser) store).1 = ⟨409, [("error", .str "Username exists")]⟩ ∨
      (Signup lib env (.ok newUser) store).1 = ⟨500, [("error", .str "Database error")]⟩) ∧
    ((Signup lib env (.ok newUser) store).1 = ⟨409, [("error", .str "Username exists")]⟩ ↔
      env.findOneErr = none ∧
        ∃ d a, store.find? (matchesFilter [(["user", "username"], .eqStr newUser.Username)])
            = some d ∧ decodeDatabaseUser lib d = .ok a) ∧
    (env.findOneErr = none → HoldsAccounts store →
      (Signup lib env (.ok newUser) store).1 = ⟨409, [("error", .str "Username exists")]⟩) := by
  have hsome : ∃ d, store.find? (matchesFilter [(["user", "username"],
      .eqStr newUser.Username)]) = some d := by
    cases hf : store.find? (matchesFilter [(["user", "username"], .eqStr newUser.Username)]) with
    | some d => exact ⟨d, rfl⟩
    | none =>
        have := List.find?_eq_none.1 hf _ hmem
        rw [matches_username_encoded] at this
        simp [hsame] at this
  obtain ⟨d, hd⟩ := hsome
  have hrun : Signup lib env (.ok newUser) store =
      (match env.findOneErr with
        | some _ => ⟨500, [("error", .str "Database error")]⟩
        | none =>
            match decodeDatabaseUser lib d with
            | .ok _ => ⟨409, [("error", .str "Username exists")]⟩
            | .error _ => ⟨500, [("error", .str "Database error")]⟩, store) := by
    cases hfind : env.findOneErr with
    | some msg => simp [Signup, hname, hemail, hpass, hfind, FindOne, Decode]
    | none =>
        cases hdec : decodeDatabaseUser lib d with
        | ok a => simp [Signup, hname, hemail, hpass, hfind, FindOne, hd, Decode, hdec]
        | error e =>
            have hne : e ≠ Error.ErrNoDocuments := by
              intro he
              subst he
              exact decodeDatabaseUser_ne_noDocuments lib d hdec
            simp [Signup, hname, hemail, hpass, hfind, FindOne, hd, Decode, hdec, hne]
  rw [hrun]
  refine ⟨rfl, ?_, ?_, ?_⟩
  · cases env.findOneErr with
    | some msg => exact Or.inr rfl
    | none =>
        cases decodeDatabaseUser lib d with
        | ok a => exact Or.inl rfl
        | error e => exact Or.inr rfl
  · cases hfind : env.findOneErr with
    | some msg => simp
    | none =>
        cases hdec : decodeDatabaseUser lib d with
        | ok a => exact ⟨fun _ => ⟨rfl, d, a, hd, hdec⟩, fun _ => rfl⟩
        | error e =>
            constructor
            · intro h
              simp at h
            · rintro ⟨_, d', a', hd', hdec'⟩
              rw [hd] at hd'
              simp only [Option.some.injEq] at hd'
              subst hd'
              rw [hdec] at hdec'
              cases hdec'
  · intro hfind hacc
    obtain ⟨a, rfl⟩ := hacc d (List.mem_of_find?_eq_some hd)
    rw [hfind, decodeDatabaseUser_encode_eq]

theorem signup_alice_created :
    Signup toyLibs calmSignup (.ok aliceRequest) [] =
      (⟨201, [("message", .str "User created"), ("user", .str "alice")]⟩, aliceStore) := by
  rfl

/-- C7 as amended, at a concrete input: a second signup as `alice` on the collection that
holds `alice` leaves the collection as it is and is answered 409. -/
theorem signup_conflict_witness :
    (Signup toyLibs calmSignup (.ok aliceRequest) aliceStore).2 = aliceStore ∧
    (Signup toyLibs calmSignup (.ok aliceRequest) aliceStore).1 =
      ⟨409, [("error", .str "Username exists")]⟩ :=
  ⟨(signup_conflict toyLibs calmSignup aliceRequest aliceStore aliceAccount
      (by decide) (by decide) (by decide) (List.mem_singleton.2 rfl) rfl).1,
   (signup_conflict toyLibs calmSignup aliceRequest aliceStore aliceAccount
      (by decide) (by decide) (by decide) (List.mem_singleton.2 rfl) rfl).2.2.2 rfl
      (fun d hd => ⟨aliceAccount, List.mem_singleton.1 hd⟩)⟩

theorem FindOne_fresh (store : Store) (a : DatabaseUser) (hacc : HoldsAccounts store)
    (hfresh : ∀ b, encodeDatabaseUser b ∈ store → b.User.Username ≠ a.User.Username) :
    FindOne none store [(["user", "username"], .eqStr a.User.Username)] = .error .ErrNoDocuments ∧
    FindOne none (store ++ [encodeDatabaseUser a])
      [(["user", "username"], .eqStr a.User.Username)] = .ok (encodeDatabaseUser a) := by
  have hnone : store.find? (matchesFilter [(["user", "username"], .eqStr a.User.Username)])
      = none := by
    rw [List.find?_eq_none]
    intro d hd
    obtain ⟨b, rfl⟩ := hacc d hd
    rw [matches_username_encoded]
    simpa using hfresh b hd
  constructor
  · simp [FindOne, hnone]
  · simp [FindOne, List.find?_append, hnone, matches_username_encoded]

/-- The path that works: a decoded signup request with its three fields filled in, for a
user name the collection of accounts does not hold yet, is answered 201 when no call fails;
the `Login` that follows with the same user name and password is answered 200 with the
token, and a `Login` whose password does not verify is answered 401. -/
theorem login_after_signup (lib : Libs) (h : AuthHandler) (env : SignupEnv) (lenv : LoginEnv)
    (newUser : User) (store : Store) (salt : Bytes 16) (token : String)
    (hname : newUser.Username ≠ "") (hemail : newUser.Email ≠ "")
    (hpass : newUser.Password ≠ "") (hacc : HoldsAccounts store)
    (hfresh : ∀ b, encodeDatabaseUser b ∈ store → b.User.Username ≠ newUser.Username)
    (hfind : env.findOneErr = none) (hrand : env.randRead = .ok salt)
    (hinsert : env.insertOneErr = none) (hlfind : lenv.findOneErr = none)
    (htoken : generateToken lib lenv.now newUser.Username h.jwtSecret = .ok token) :
    (Signup lib env (.ok newUser) store).1 =
      ⟨201, [("message", .str "User created"), ("user", .str newUser.Username)]⟩ ∧
    Login lib h lenv (.ok { Username := newUser.Username, Password := newUser.Password })
      (Signup lib env (.ok newUser) store).2 =
      ⟨200, [("message", .str "Login success"), ("user", .str newUser.Username),
             ("token", .str token)]⟩ ∧
    ∀ wrong, verifyPassword lib wrong (rawStdEncode salt.val)
        (rawStdEncode (lib.IDKey (bytesOf newUser.Password) salt.val 1 (64 * 1024) 4 32).val)
        "argon2id" = false →
      Login lib h lenv (.ok { Username := newUser.Username, Password := wrong })
        (Signup lib env (.ok newUser) store).2 =
        ⟨401, [("error", .str "Invalid credentials")]⟩ := by
  have hhash : hashPasswordArgon2 lib (.ok salt) newUser.Password = .ok
      ⟨rawStdEncode (lib.IDKey (bytesOf newUser.Password) salt.val 1 (64 * 1024) 4 32).val,
        rawStdEncode salt.val, "argon2id"⟩ := rfl
  have hverify : verifyPassword lib newUser.Password (rawStdEncode salt.val)
      (rawStdEncode (lib.IDKey (bytesOf newUser.Password) salt.val 1 (64 * 1024) 4 32).val)
      "argon2id" = true := by
    have h0 := verifyArgon2_own_hash lib newUser.Password salt.val
    simpa [verifyPassword] using h0
  have hf := FindOne_fresh store
    { User := { Username := newUser.Username, Email := newUser.Email,
                Password := rawStdEncode
                  (lib.IDKey (bytesOf newUser.Password) salt.val 1 (64 * 1024) 4 32).val,
                Salt := rawStdEncode salt.val, Format := "argon2id", IsRandom := false,
                ExpiresAt := zeroTime }, ExpiresAt := zeroTime } hacc hfresh
  have hsignup : Signup lib env (.ok newUser) store =
      (⟨201, [("message", .str "User created"), ("user", .str newUser.Username)]⟩,
       store ++ [encodeDatabaseUser
        { User := { Username := newUser.Username, Email := newUser.Email,
                    Password := rawStdEncode
                      (lib.IDKey (bytesOf newUser.Password) salt.val 1 (64 * 1024) 4 32).val,
                    Salt := rawStdEncode salt.val, Format := "argon2id", IsRandom := false,
                    ExpiresAt := zeroTime }, ExpiresAt := zeroTime }]) := by
    simp only [Signup, hfind, hf.1, Decode, hrand, hhash, hinsert, InsertOne]
    simp [hname, hemail, hpass]
  rw [hsignup]
  refine ⟨rfl, ?_, ?_⟩
  · simp only [Login, hlfind, hf.2, Decode, decodeDatabaseUser_encode_eq, hverify, htoken]
    rfl
  · intro wrong hwrong
    simp only [Login, hlfind, hf.2, Decode, decodeDatabaseUser_encode_eq, hwrong]
    rfl

end FiveChan
